import Mathlib

/-!
Shallow embedding of the simulation and rebalancing engine of
`run_optimized_backtest.py` (function `run_optimized_backtest` and its
inner helper `detect_market_condition`).

All monetary quantities are modelled as rationals (`ℚ`), giving the exact
real arithmetic that the specification's "up to floating-point rounding"
clauses refer to.  A price or dividend lookup that can raise in Python is
modelled as an `Option`; `none` models a lookup that raises (a `KeyError`
from `.loc`, or a `ZeroDivisionError` where the code divides by a price).
The per-date `try/except` of the main loop is modelled by step functions
that, on an error, return the partially mutated state exactly as the
Python interpreter leaves it, and append nothing further.
-/

namespace Backtest

/-- The two sleeves of the portfolio.  A symbol in `dividend_data` is tagged
`dividend` (category `dividend_aristocrat`), a symbol in `growth_data` is
tagged `growth` (category `high_growth`); the two stock lists of the source
are disjoint, so sleeve membership and dict membership coincide. -/
inductive Sleeve
  | dividend
  | growth
deriving DecidableEq

/-- Market regime label returned by `detect_market_condition`. -/
inductive Regime
  | bull
  | bear
  | sideways
deriving DecidableEq

/-- A position equipped with the market data of the date being processed:
`price` is the close price looked up by `.loc[date, 'Close']` (`none` when
that lookup would raise) and `pay` is the per-share dividend recorded for
this date (`none` when `date not in dividends.index`). -/
structure DPos where
  sleeve : Sleeve
  shares : ℚ
  price : Option ℚ
  pay : Option ℚ
deriving DecidableEq

/-- Regime classifier, from `detect_market_condition` (source lines 164-184).
The benchmark series is the ordered list of `(date, close)` rows of
`spy_data`; `get_loc` is modelled by `findIdx?`.  The bare `except:` of the
source catches every failure (including a `ZeroDivisionError` when the past
price is zero) and returns the sideways default, so the function is total. -/
def detect_market_condition (date : ℕ) (spy : List (ℕ × ℚ))
    (lookbackDays : ℕ) (threshold : ℚ) : Regime × ℚ :=
  match spy.findIdx? (fun r => r.1 = date) with
  | none => (Regime.sideways, 7/10)
  | some i =>
    if i < lookbackDays then (Regime.sideways, 7/10)
    else
      match spy[i]?, spy[i - lookbackDays]? with
      | some cur, some past =>
        if past.2 = 0 then (Regime.sideways, 7/10)
        else
          let change := (cur.2 - past.2) / past.2
          if threshold < change then (Regime.bull, 11/20)
          else if change < -threshold then (Regime.bear, 17/20)
          else (Regime.sideways, 7/10)
      | _, _ => (Regime.sideways, 7/10)

/-- Growth weight per stock, from source line 109:
`1.0 / len(growth_data) if growth_data else 0`. -/
def growthWeightPerStock (growthPrices : List ℚ) : ℚ :=
  if growthPrices.isEmpty then 0 else 1 / (growthPrices.length : ℚ)

/-- Initial allocation over the dividend sleeve (source lines 139-148).
Each entry is `(weight, initial price)`; the price is `none` when the
symbol is absent from `dividend_data` (the `if symbol in dividend_data`
guard then skips the symbol entirely).  A zero price makes
`target_value / initial_price` raise `ZeroDivisionError`, modelled as
`none` for the whole allocation.  Returns the created positions together
with the total capital spent. -/
def allocDividend (capital divAlloc : ℚ) :
    List (ℚ × Option ℚ) → Option (List (Sleeve × ℚ) × ℚ)
  | [] => some ([], 0)
  | (_, none) :: rest => allocDividend capital divAlloc rest
  | (w, some p) :: rest =>
    if p = 0 then none
    else
      match allocDividend capital divAlloc rest with
      | none => none
      | some (ps, spent) =>
        some ((Sleeve.dividend, capital * divAlloc * w / p) :: ps,
          capital * divAlloc * w + spent)

/-- Initial allocation over the growth sleeve (source lines 150-158); all
symbols present in `growth_data` share the weight `gw` equally. -/
def allocGrowth (capital growthAlloc gw : ℚ) :
    List ℚ → Option (List (Sleeve × ℚ) × ℚ)
  | [] => some ([], 0)
  | p :: rest =>
    if p = 0 then none
    else
      match allocGrowth capital growthAlloc gw rest with
      | none => none
      | some (ps, spent) =>
        some ((Sleeve.growth, capital * growthAlloc * gw / p) :: ps,
          capital * growthAlloc * gw + spent)

/-- Full initialization (source lines 134-158): both sleeve allocations,
with the remaining cash `initial_capital - Σ target_value`. -/
def initialAllocation (capital divAlloc growthAlloc : ℚ)
    (divWeights : List (ℚ × Option ℚ)) (growthPrices : List ℚ) :
    Option (List (Sleeve × ℚ) × ℚ) :=
  match allocDividend capital divAlloc divWeights with
  | none => none
  | some (dps, spentD) =>
    match allocGrowth capital growthAlloc (growthWeightPerStock growthPrices)
        growthPrices with
    | none => none
    | some (gps, spentG) =>
      some (dps ++ gps, capital - spentD - spentG)

/-- One reinvestment attempt (source lines 200-208): a dividend-sleeve
position with a payment recorded for the date receives
`new_shares = shares * amount / price`.  `none` models the raise when the
price lookup fails or the price is zero (`ZeroDivisionError`); other
positions are untouched. -/
def reinvestOne (q : DPos) : Option DPos :=
  match q.sleeve, q.pay with
  | Sleeve.dividend, some d =>
    match q.price with
    | some p =>
      if p = 0 then none
      else some { q with shares := q.shares + q.shares * d / p }
    | none => none
  | _, _ => some q

/-- Phase 1 of a date (source lines 199-209): reinvest dividends position by
position.  When a position raises, the loop stops there: earlier positions
keep their new shares, the raising position and all later ones are
unchanged, and the returned flag is `true` (the date's `except` will fire). -/
def processDividends : List DPos → List DPos × Bool
  | [] => ([], false)
  | q :: rest =>
    match reinvestOne q with
    | none => (q :: rest, true)
    | some q2 =>
      let r := processDividends rest
      (q2 :: r.1, r.2)

/-- Phase 2 of a date (source lines 211-227): sum each sleeve's
`shares * price`.  Every position's price is looked up, so a single missing
price raises and the whole valuation fails (`none`). -/
def computeValues : List DPos → Option (ℚ × ℚ)
  | [] => some (0, 0)
  | q :: rest =>
    match q.price with
    | none => none
    | some p =>
      match computeValues rest with
      | none => none
      | some (dv, gv) =>
        match q.sleeve with
        | Sleeve.dividend => some (q.shares * p + dv, gv)
        | Sleeve.growth => some (dv, q.shares * p + gv)

/-- Value of one sleeve at the date's prices (a missing price read as 0);
used to state lemmas about `computeValues` and the rebalance legs. -/
def sleeveValue (sl : Sleeve) : List DPos → ℚ
  | [] => 0
  | q :: rest =>
    (if q.sleeve = sl then q.shares * q.price.getD 0 else 0) + sleeveValue sl rest

/-- Number of positions in a sleeve; models `len(growth_data)` and
`len(dividend_data)` (positions are created exactly from those dicts). -/
def countSleeve (sl : Sleeve) : List DPos → ℕ
  | [] => 0
  | q :: rest => (if q.sleeve = sl then 1 else 0) + countSleeve sl rest

/-- Proportional sell leg of a rebalance (source lines 257-265 and 288-296):
every position of sleeve `sl` sells `shares * f` shares at its current
price, the proceeds accumulate into cash.  On a missing price the loop
raises: earlier positions stay sold, the rest are untouched, and the flag
is `true`.  Returns (new positions, cash received, raised flag). -/
def sellSleeve (sl : Sleeve) (f : ℚ) : List DPos → List DPos × ℚ × Bool
  | [] => ([], 0, false)
  | q :: rest =>
    if q.sleeve = sl then
      match q.price with
      | none => (q :: rest, 0, true)
      | some p =>
        let sold := q.shares * f
        let r := sellSleeve sl f rest
        ({ q with shares := q.shares - sold } :: r.1, sold * p + r.2.1, r.2.2)
    else
      let r := sellSleeve sl f rest
      (q :: r.1, r.2.1, r.2.2)

/-- Proportional buy leg of a rebalance (source lines 267-278 and 298-309):
each position of sleeve `sl` gets `buy_fraction = shares * price / sval`
when `sval > 0`, else the equal-weight fallback `1 / n`; it buys
`amount * buy_fraction` worth of shares and that cost leaves cash.  A
missing or zero price raises (`shares_to_buy = buy_amount / current_price`)
before the position is mutated.  Returns (new positions, cash spent,
raised flag). -/
def buySleeve (sl : Sleeve) (amount sval : ℚ) (n : ℕ) :
    List DPos → List DPos × ℚ × Bool
  | [] => ([], 0, false)
  | q :: rest =>
    if q.sleeve = sl then
      match q.price with
      | none => (q :: rest, 0, true)
      | some p =>
        if p = 0 then (q :: rest, 0, true)
        else
          let bf := if 0 < sval then q.shares * p / sval else 1 / (n : ℚ)
          let amt := amount * bf
          let r := buySleeve sl amount sval n rest
          ({ q with shares := q.shares + amt / p } :: r.1, amt + r.2.1, r.2.2)
    else
      let r := buySleeve sl amount sval n rest
      (q :: r.1, r.2.1, r.2.2)

/-- The rebalancing-event record of source lines 313-321. -/
structure RebalanceEvent where
  date : ℕ
  sellDividend : Bool
  condition : Regime
  targetAlloc : ℚ
  excessMoved : ℚ
  allocBefore : ℚ
  allocAfter : ℚ
deriving DecidableEq

/-- The tracking lists of the loop (source lines 117-119 and 186-195),
restricted to those the claims talk about, plus `excessMem`: the value of
the Python local variable `excess_dividend_value`, which persists across
loop iterations (`none` while the variable has never been assigned). -/
structure TrackState where
  dates : List ℕ
  portfolioValues : List ℚ
  spyValues : List ℚ
  dividendValues : List ℚ
  growthValues : List ℚ
  marketConditions : List Regime
  dynamicTargets : List ℚ
  rebalancingEvents : List RebalanceEvent
  excessMem : Option ℚ
deriving DecidableEq

/-- The empty tracking state at loop entry. -/
def initTrack : TrackState :=
  { dates := [], portfolioValues := [], spyValues := [], dividendValues := []
    growthValues := [], marketConditions := [], dynamicTargets := []
    rebalancingEvents := [], excessMem := none }

/-- The position ledger threaded from date to date: per-symbol sleeve and
share count, plus the cash balance. -/
structure Ledger where
  positions : List (Sleeve × ℚ)
  cash : ℚ
deriving DecidableEq

/-- Per-date market data: one price and one optional dividend per position
(parallel to the ledger's position list), the benchmark close for the date,
and the result of `detect_market_condition` for the date (that function is
total, so passing its value is equivalent to calling it). -/
structure DayInput where
  date : ℕ
  prices : List (Option ℚ)
  pays : List (Option ℚ)
  spyPrice : Option ℚ
  condition : Regime
  target : ℚ
deriving DecidableEq

/-- Pair each ledger position with the date's market data. -/
def equip (led : Ledger) (d : DayInput) : List DPos :=
  (led.positions.zip (d.prices.zip d.pays)).map
    (fun x => { sleeve := x.1.1, shares := x.1.2, price := x.2.1, pay := x.2.2 })

/-- Strip the market data back off. -/
def unequip (ps : List DPos) : List (Sleeve × ℚ) :=
  ps.map (fun q => (q.sleeve, q.shares))

/-- Append one snapshot to the five per-date series (source lines 349-354);
nothing fallible separates these five appends in the source. -/
def recordSnapshot (acc : TrackState) (date : ℕ) (pv spyVal dv gv : ℚ) :
    TrackState :=
  { acc with
    portfolioValues := acc.portfolioValues ++ [pv]
    spyValues := acc.spyValues ++ [spyVal]
    dividendValues := acc.dividendValues ++ [dv]
    growthValues := acc.growthValues ++ [gv]
    dates := acc.dates ++ [date] }

/-- Steps 4-6 of a date (source lines 345-356): benchmark lookup (which can
raise, and raises on a zero first benchmark price), then the snapshot
append.  `pv`, `dv`, `gv` are the values last assigned before this point. -/
def finishDay (ic spyFirst : ℚ) (ps : List DPos) (cash : ℚ) (d : DayInput)
    (acc : TrackState) (pv dv gv : ℚ) : Ledger × TrackState :=
  match d.spyPrice with
  | none => ({ positions := unequip ps, cash := cash }, acc)
  | some sp =>
    if spyFirst = 0 then ({ positions := unequip ps, cash := cash }, acc)
    else
      ({ positions := unequip ps, cash := cash },
        recordSnapshot acc d.date pv (ic * (sp / spyFirst)) dv gv)

/-- Append the market-condition label and the dynamic target for the date
(source lines 235-236); this happens right after classification and before
any of the date's remaining fallible steps. -/
def pushConditions (acc : TrackState) (c : Regime) (t : ℚ) : TrackState :=
  { acc with
    marketConditions := acc.marketConditions ++ [c]
    dynamicTargets := acc.dynamicTargets ++ [t] }

/-- Sell-dividend branch (source lines 249-278 plus the event append and the
revaluation, lines 311-339): the Python local `excess_dividend_value` is
assigned at branch entry (recorded in `excessMem` even if a later raise
aborts the date); the dividend sell leg, the growth buy leg, the
`RebalanceEvent`, the revaluation, and the date finish run in order, each
raise keeping the mutations made so far. -/
def sellBranch (ic spyFirst : ℚ) (ps1 : List DPos) (cash0 : ℚ) (d : DayInput)
    (acc1 : TrackState) (dv gv pv cda : ℚ) : Ledger × TrackState :=
  let tdv := pv * d.target
  let excess := dv - tdv
  let acc2 := { acc1 with excessMem := some excess }
  let sf := if 0 < dv then excess / dv else 0
  let r2 := sellSleeve Sleeve.dividend sf ps1
  let cash2 := cash0 + r2.2.1
  if r2.2.2 then ({ positions := unequip r2.1, cash := cash2 }, acc2)
  else
    let r3 := buySleeve Sleeve.growth excess gv
      (countSleeve Sleeve.growth r2.1) r2.1
    let cash3 := cash2 - r3.2.1
    if r3.2.2 then ({ positions := unequip r3.1, cash := cash3 }, acc2)
    else if pv = 0 then
      ({ positions := unequip r3.1, cash := cash3 }, acc2)
    else
      let ev : RebalanceEvent :=
        { date := d.date, sellDividend := true, condition := d.condition
          targetAlloc := d.target, excessMoved := excess
          allocBefore := cda, allocAfter := tdv / pv }
      let acc3 := { acc2 with
        rebalancingEvents := acc2.rebalancingEvents ++ [ev] }
      match computeValues r3.1 with
      | none => ({ positions := unequip r3.1, cash := cash3 }, acc3)
      | some (dv2, gv2) =>
        finishDay ic spyFirst r3.1 cash3 d acc3 (cash3 + dv2 + gv2) dv2 gv2

/-- Buy-dividend branch (source lines 280-339): growth sell leg, dividend
buy leg, event append (whose `excess_moved` reads the stale
`excess_dividend_value` whenever a sell branch ran on any earlier date),
revaluation, and date finish. -/
def buyBranch (ic spyFirst : ℚ) (ps1 : List DPos) (cash0 : ℚ) (d : DayInput)
    (acc1 : TrackState) (dv gv pv cda : ℚ) : Ledger × TrackState :=
  let tdv := pv * d.target
  let deficit := tdv - dv
  let sf := if 0 < gv then deficit / gv else 0
  let r2 := sellSleeve Sleeve.growth sf ps1
  let cash2 := cash0 + r2.2.1
  if r2.2.2 then ({ positions := unequip r2.1, cash := cash2 }, acc1)
  else
    let r3 := buySleeve Sleeve.dividend deficit dv
      (countSleeve Sleeve.dividend r2.1) r2.1
    let cash3 := cash2 - r3.2.1
    if r3.2.2 then ({ positions := unequip r3.1, cash := cash3 }, acc1)
    else if pv = 0 then
      ({ positions := unequip r3.1, cash := cash3 }, acc1)
    else
      let ev : RebalanceEvent :=
        { date := d.date, sellDividend := false, condition := d.condition
          targetAlloc := d.target
          excessMoved := acc1.excessMem.getD deficit
          allocBefore := cda, allocAfter := tdv / pv }
      let acc3 := { acc1 with
        rebalancingEvents := acc1.rebalancingEvents ++ [ev] }
      match computeValues r3.1 with
      | none => ({ positions := unequip r3.1, cash := cash3 }, acc3)
      | some (dv2, gv2) =>
        finishDay ic spyFirst r3.1 cash3 d acc3 (cash3 + dv2 + gv2) dv2 gv2

/-- One full date of the loop body (source lines 197-359), on positions
already equipped with the date's data.  Every early `return` models the
outer `except` catching a raise: the partially mutated positions and cash
are kept, and nothing further is appended for the date. -/
def stepCore (ic spyFirst : ℚ) (ps0 : List DPos) (cash0 : ℚ) (d : DayInput)
    (acc0 : TrackState) : Ledger × TrackState :=
  let r1 := processDividends ps0
  let ps1 := r1.1
  if r1.2 then ({ positions := unequip ps1, cash := cash0 }, acc0)
  else
    match computeValues ps1 with
    | none => ({ positions := unequip ps1, cash := cash0 }, acc0)
    | some (dv, gv) =>
      let pv := cash0 + dv + gv
      let cda := if 0 < pv then dv / pv else 0
      let acc1 := pushConditions acc0 d.condition d.target
      if d.target + 5/100 < cda then
        sellBranch ic spyFirst ps1 cash0 d acc1 dv gv pv cda
      else if cda < d.target - 5/100 then
        buyBranch ic spyFirst ps1 cash0 d acc1 dv gv pv cda
      else
        finishDay ic spyFirst ps1 cash0 d acc1 pv dv gv

/-- One date of the loop, starting from the ledger form of the state. -/
def stepDate (ic spyFirst : ℚ) (st : Ledger × TrackState) (d : DayInput) :
    Ledger × TrackState :=
  stepCore ic spyFirst (equip st.1 d) st.1.cash d st.2

/-- The whole date loop (`for date in all_dates`, source line 197). -/
def runDates (ic spyFirst : ℚ) :
    Ledger × TrackState → List DayInput → Ledger × TrackState
  | st, [] => st
  | st, d :: ds => runDates ic spyFirst (stepDate ic spyFirst st d) ds

/-- The five per-date snapshot series all have the length of the date
series. -/
def snapLengthsEq (acc : TrackState) : Prop :=
  acc.portfolioValues.length = acc.dates.length ∧
  acc.spyValues.length = acc.dates.length ∧
  acc.dividendValues.length = acc.dates.length ∧
  acc.growthValues.length = acc.dates.length

instance (acc : TrackState) : Decidable (snapLengthsEq acc) := by
  unfold snapLengthsEq
  infer_instance

/-! ### Lemmas about the valuation and the two rebalance legs -/

@[simp] theorem growth_ne_dividend :
    (Sleeve.growth = Sleeve.dividend) = False := by
  simp

@[simp] theorem dividend_ne_growth :
    (Sleeve.dividend = Sleeve.growth) = False := by
  simp

theorem computeValues_eq (ps : List DPos) (h : ∀ q ∈ ps, q.price.isSome) :
    computeValues ps =
      some (sleeveValue Sleeve.dividend ps, sleeveValue Sleeve.growth ps) := by
  induction ps with
  | nil => rfl
  | cons q rest ih =>
    obtain ⟨p, hp⟩ := Option.isSome_iff_exists.mp (h q (by simp))
    have ih2 := ih (fun r hr => h r (by simp [hr]))
    cases hq : q.sleeve <;>
      simp [computeValues, hp, ih2, sleeveValue, hq]

theorem sellSleeve_skeleton (sl : Sleeve) (f : ℚ) (ps : List DPos) :
    ((sellSleeve sl f ps).1).map (fun q => (q.sleeve, q.price)) =
      ps.map (fun q => (q.sleeve, q.price)) := by
  induction ps with
  | nil => rfl
  | cons q rest ih =>
    by_cases hq : q.sleeve = sl
    · cases hp : q.price <;> simp [sellSleeve, hq, hp, ih]
    · simp [sellSleeve, hq, ih]

theorem sellSleeve_flag (sl : Sleeve) (f : ℚ) (ps : List DPos)
    (h : ∀ q ∈ ps, q.sleeve = sl → q.price.isSome) :
    (sellSleeve sl f ps).2.2 = false := by
  induction ps with
  | nil => rfl
  | cons q rest ih =>
    have ih2 := ih (fun r hr hs => h r (by simp [hr]) hs)
    by_cases hq : q.sleeve = sl
    · obtain ⟨p, hp⟩ := Option.isSome_iff_exists.mp (h q (by simp) hq)
      simp [sellSleeve, hq, hp, ih2]
    · simp [sellSleeve, hq, ih2]

theorem sellSleeve_cash (sl : Sleeve) (f : ℚ) (ps : List DPos)
    (h : ∀ q ∈ ps, q.sleeve = sl → q.price.isSome) :
    (sellSleeve sl f ps).2.1 = f * sleeveValue sl ps := by
  induction ps with
  | nil => simp [sellSleeve, sleeveValue]
  | cons q rest ih =>
    have ih2 := ih (fun r hr hs => h r (by simp [hr]) hs)
    by_cases hq : q.sleeve = sl
    · obtain ⟨p, hp⟩ := Option.isSome_iff_exists.mp (h q (by simp) hq)
      simp [sellSleeve, hq, hp, ih2, sleeveValue]
      ring
    · simp [sellSleeve, hq, ih2, sleeveValue]

theorem sellSleeve_val_self (sl : Sleeve) (f : ℚ) (ps : List DPos)
    (h : ∀ q ∈ ps, q.sleeve = sl → q.price.isSome) :
    sleeveValue sl (sellSleeve sl f ps).1 = (1 - f) * sleeveValue sl ps := by
  induction ps with
  | nil => simp [sellSleeve, sleeveValue]
  | cons q rest ih =>
    have ih2 := ih (fun r hr hs => h r (by simp [hr]) hs)
    by_cases hq : q.sleeve = sl
    · obtain ⟨p, hp⟩ := Option.isSome_iff_exists.mp (h q (by simp) hq)
      simp [sellSleeve, hq, hp, ih2, sleeveValue]
      ring
    · simp [sellSleeve, hq, ih2, sleeveValue]

theorem sellSleeve_val_other (sl' sl : Sleeve) (hne : sl' ≠ sl) (f : ℚ)
    (ps : List DPos) :
    sleeveValue sl' (sellSleeve sl f ps).1 = sleeveValue sl' ps := by
  induction ps with
  | nil => rfl
  | cons q rest ih =>
    by_cases hq : q.sleeve = sl
    · have hq' : ¬ q.sleeve = sl' := by rw [hq]; exact fun hc => hne hc.symm
      have hne2 : ¬ sl = sl' := fun hc => hne hc.symm
      cases hp : q.price <;> simp [sellSleeve, hq, hq', hne2, hp, ih, sleeveValue]
    · simp [sellSleeve, hq, ih, sleeveValue]

theorem countSleeve_sellSleeve (sl' sl : Sleeve) (f : ℚ) (ps : List DPos) :
    countSleeve sl' (sellSleeve sl f ps).1 = countSleeve sl' ps := by
  induction ps with
  | nil => rfl
  | cons q rest ih =>
    by_cases hq : q.sleeve = sl
    · cases hp : q.price <;> simp [sellSleeve, hq, hp, ih, countSleeve]
    · simp [sellSleeve, hq, ih, countSleeve]

theorem buySleeve_skeleton (sl : Sleeve) (a sv : ℚ) (n : ℕ) (ps : List DPos) :
    ((buySleeve sl a sv n ps).1).map (fun q => (q.sleeve, q.price)) =
      ps.map (fun q => (q.sleeve, q.price)) := by
  induction ps with
  | nil => rfl
  | cons q rest ih =>
    by_cases hq : q.sleeve = sl
    · cases hp : q.price with
      | none => simp [buySleeve, hq, hp]
      | some p =>
        by_cases hz : p = 0 <;> simp [buySleeve, hq, hp, hz, ih]
    · simp [buySleeve, hq, ih]

theorem buySleeve_flag (sl : Sleeve) (a sv : ℚ) (n : ℕ) (ps : List DPos)
    (h : ∀ q ∈ ps, q.sleeve = sl → ∃ p, q.price = some p ∧ p ≠ 0) :
    (buySleeve sl a sv n ps).2.2 = false := by
  induction ps with
  | nil => rfl
  | cons q rest ih =>
    have ih2 := ih (fun r hr hs => h r (by simp [hr]) hs)
    by_cases hq : q.sleeve = sl
    · obtain ⟨p, hp, hz⟩ := h q (by simp) hq
      simp [buySleeve, hq, hp, hz, ih2]
    · simp [buySleeve, hq, ih2]

theorem buySleeve_spent (sl : Sleeve) (a sv : ℚ) (n : ℕ) (ps : List DPos)
    (h : ∀ q ∈ ps, q.sleeve = sl → ∃ p, q.price = some p ∧ p ≠ 0) :
    (buySleeve sl a sv n ps).2.1 =
      a * (if 0 < sv then sleeveValue sl ps / sv
           else (countSleeve sl ps : ℚ) / (n : ℚ)) := by
  induction ps with
  | nil => simp [buySleeve, sleeveValue, countSleeve]
  | cons q rest ih =>
    have ih2 := ih (fun r hr hs => h r (by simp [hr]) hs)
    by_cases hq : q.sleeve = sl
    · obtain ⟨p, hp, hz⟩ := h q (by simp) hq
      by_cases hsv : 0 < sv
      · simp [buySleeve, hq, hp, hz, ih2, sleeveValue, hsv]
        ring
      · simp [buySleeve, hq, hp, hz, ih2, sleeveValue, countSleeve, hsv]
        ring
    · simp [buySleeve, hq, ih2, sleeveValue, countSleeve]

theorem buySleeve_val_self (sl : Sleeve) (a sv : ℚ) (n : ℕ) (ps : List DPos)
    (h : ∀ q ∈ ps, q.sleeve = sl → ∃ p, q.price = some p ∧ p ≠ 0) :
    sleeveValue sl (buySleeve sl a sv n ps).1 =
      sleeveValue sl ps + (buySleeve sl a sv n ps).2.1 := by
  induction ps with
  | nil => simp [buySleeve, sleeveValue]
  | cons q rest ih =>
    have ih2 := ih (fun r hr hs => h r (by simp [hr]) hs)
    by_cases hq : q.sleeve = sl
    · obtain ⟨p, hp, hz⟩ := h q (by simp) hq
      simp [buySleeve, hq, hp, hz, ih2, sleeveValue]
      rw [add_mul, div_mul_cancel₀ _ hz]
      ring
    · simp [buySleeve, hq, ih2, sleeveValue]

theorem buySleeve_val_other (sl' sl : Sleeve) (hne : sl' ≠ sl) (a sv : ℚ)
    (n : ℕ) (ps : List DPos) :
    sleeveValue sl' (buySleeve sl a sv n ps).1 = sleeveValue sl' ps := by
  induction ps with
  | nil => rfl
  | cons q rest ih =>
    by_cases hq : q.sleeve = sl
    · have hq' : ¬ q.sleeve = sl' := by rw [hq]; exact fun hc => hne hc.symm
      have hne2 : ¬ sl = sl' := fun hc => hne hc.symm
      cases hp : q.price with
      | none => simp [buySleeve, hq, hp]
      | some p =>
        by_cases hz : p = 0 <;>
          simp [buySleeve, hq, hq', hne2, hp, hz, ih, sleeveValue]
    · simp [buySleeve, hq, ih, sleeveValue]

theorem skeleton_transfer {l1 l2 : List DPos}
    (h : l1.map (fun q => (q.sleeve, q.price)) = l2.map (fun q => (q.sleeve, q.price)))
    {P : Sleeve → Option ℚ → Prop} (h2 : ∀ q ∈ l2, P q.sleeve q.price) :
    ∀ q ∈ l1, P q.sleeve q.price := by
  intro q hq
  have hm : (q.sleeve, q.price) ∈ l2.map (fun r => (r.sleeve, r.price)) := by
    rw [← h]
    exact List.mem_map_of_mem _ hq
  obtain ⟨r, hr, he⟩ := List.mem_map.1 hm
  have h1 : r.sleeve = q.sleeve := congrArg Prod.fst he
  have hpcs : r.price = q.price := congrArg Prod.snd he
  rw [← h1, ← hpcs]
  exact h2 r hr

theorem finishDay_some (ic spyFirst : ℚ) (ps : List DPos) (cash : ℚ)
    (d : DayInput) (acc : TrackState) (pv dv gv sp : ℚ)
    (hsp : d.spyPrice = some sp) (hsf : spyFirst ≠ 0) :
    finishDay ic spyFirst ps cash d acc pv dv gv =
      ({ positions := unequip ps, cash := cash },
        recordSnapshot acc d.date pv (ic * (sp / spyFirst)) dv gv) := by
  simp [finishDay, hsp, hsf]

theorem stepCore_dispatch (ic spyFirst : ℚ) (ps0 ps1 : List DPos)
    (cash0 : ℚ) (d : DayInput) (acc0 : TrackState) (dv gv : ℚ)
    (hre : processDividends ps0 = (ps1, false))
    (hpr : ∀ q ∈ ps1, q.price.isSome)
    (hdv : sleeveValue Sleeve.dividend ps1 = dv)
    (hgv : sleeveValue Sleeve.growth ps1 = gv)
    (Hpv : 0 < cash0 + dv + gv) :
    stepCore ic spyFirst ps0 cash0 d acc0 =
      if d.target + 5/100 < dv / (cash0 + dv + gv) then
        sellBranch ic spyFirst ps1 cash0 d
          (pushConditions acc0 d.condition d.target)
          dv gv (cash0 + dv + gv) (dv / (cash0 + dv + gv))
      else if dv / (cash0 + dv + gv) < d.target - 5/100 then
        buyBranch ic spyFirst ps1 cash0 d
          (pushConditions acc0 d.condition d.target)
          dv gv (cash0 + dv + gv) (dv / (cash0 + dv + gv))
      else
        finishDay ic spyFirst ps1 cash0 d
          (pushConditions acc0 d.condition d.target)
          (cash0 + dv + gv) dv gv := by
  have hcv : computeValues ps1 = some (dv, gv) := by
    rw [computeValues_eq ps1 hpr, hdv, hgv]
  simp only [stepCore, hre, Bool.false_eq_true, if_false, hcv, if_pos Hpv]

theorem sellBranch_spec (ic spyFirst : ℚ) (ps1 : List DPos) (cash0 : ℚ)
    (d : DayInput) (acc1 : TrackState) (dv gv pv sp : ℚ)
    (hdv : sleeveValue Sleeve.dividend ps1 = dv)
    (hgv : sleeveValue Sleeve.growth ps1 = gv)
    (hpv : pv = cash0 + dv + gv)
    (Hpr : ∀ q ∈ ps1, ∃ p, q.price = some p ∧ p ≠ 0)
    (HnG : 0 < countSleeve Sleeve.growth ps1)
    (Ht : 0 ≤ d.target)
    (Hpv : 0 < pv)
    (Hband : d.target + 5/100 < dv / pv)
    (hsp : d.spyPrice = some sp) (hsf : spyFirst ≠ 0) :
    ∃ psF : List DPos,
      sellBranch ic spyFirst ps1 cash0 d acc1 dv gv pv (dv / pv) =
        ({ positions := unequip psF, cash := cash0 },
          recordSnapshot
            { acc1 with
              excessMem := some (dv - pv * d.target),
              rebalancingEvents := acc1.rebalancingEvents ++
                [{ date := d.date, sellDividend := true,
                   condition := d.condition, targetAlloc := d.target,
                   excessMoved := dv - pv * d.target,
                   allocBefore := dv / pv,
                   allocAfter := pv * d.target / pv }] }
            d.date pv (ic * (sp / spyFirst)) (pv * d.target)
            (gv + (dv - pv * d.target))) ∧
      sleeveValue Sleeve.dividend psF = pv * d.target ∧
      sleeveValue Sleeve.growth psF = gv + (dv - pv * d.target) ∧
      (sellSleeve Sleeve.dividend ((dv - pv * d.target) / dv) ps1).2.1 =
        dv - pv * d.target ∧
      (buySleeve Sleeve.growth (dv - pv * d.target) gv
        (countSleeve Sleeve.growth
          (sellSleeve Sleeve.dividend ((dv - pv * d.target) / dv) ps1).1)
        (sellSleeve Sleeve.dividend ((dv - pv * d.target) / dv) ps1).1).2.1 =
        dv - pv * d.target := by
  have hpvne : pv ≠ 0 := ne_of_gt Hpv
  have Hdv : 0 < dv := by
    have h0 : (0:ℚ) < d.target + 5/100 := by linarith
    have h1 : 0 < dv / pv := lt_trans h0 Hband
    have h2 := mul_pos h1 Hpv
    rwa [div_mul_cancel₀ _ hpvne] at h2
  have hdvne : dv ≠ 0 := ne_of_gt Hdv
  have hprS : ∀ q ∈ ps1, q.price.isSome := by
    intro q hq
    obtain ⟨p, hp, _⟩ := Hpr q hq
    simp [hp]
  have hprD : ∀ q ∈ ps1, q.sleeve = Sleeve.dividend → q.price.isSome :=
    fun q hq _ => hprS q hq
  have hflag2 :
      (sellSleeve Sleeve.dividend ((dv - pv * d.target) / dv) ps1).2.2 = false :=
    sellSleeve_flag _ _ _ hprD
  have hcash2 :
      (sellSleeve Sleeve.dividend ((dv - pv * d.target) / dv) ps1).2.1 =
        dv - pv * d.target := by
    rw [sellSleeve_cash _ _ _ hprD, hdv, div_mul_cancel₀ _ hdvne]
  have hsk2 := sellSleeve_skeleton Sleeve.dividend ((dv - pv * d.target) / dv) ps1
  have Hpr2 : ∀ q ∈ (sellSleeve Sleeve.dividend ((dv - pv * d.target) / dv) ps1).1,
      ∃ p, q.price = some p ∧ p ≠ 0 :=
    skeleton_transfer hsk2 (P := fun _ pr => ∃ p, pr = some p ∧ p ≠ 0)
      (fun q hq => Hpr q hq)
  have hbG : ∀ q ∈ (sellSleeve Sleeve.dividend ((dv - pv * d.target) / dv) ps1).1,
      q.sleeve = Sleeve.growth → ∃ p, q.price = some p ∧ p ≠ 0 :=
    fun q hq _ => Hpr2 q hq
  have hvalG2 :
      sleeveValue Sleeve.growth
        (sellSleeve Sleeve.dividend ((dv - pv * d.target) / dv) ps1).1 = gv := by
    rw [sellSleeve_val_other Sleeve.growth Sleeve.dividend (by decide) _ ps1, hgv]
  have hcnt2 :
      countSleeve Sleeve.growth
        (sellSleeve Sleeve.dividend ((dv - pv * d.target) / dv) ps1).1 =
        countSleeve Sleeve.growth ps1 :=
    countSleeve_sellSleeve _ _ _ _
  have hflag3 :
      (buySleeve Sleeve.growth (dv - pv * d.target) gv
        (countSleeve Sleeve.growth
          (sellSleeve Sleeve.dividend ((dv - pv * d.target) / dv) ps1).1)
        (sellSleeve Sleeve.dividend ((dv - pv * d.target) / dv) ps1).1).2.2 =
        false :=
    buySleeve_flag _ _ _ _ _ hbG
  have hspent :
      (buySleeve Sleeve.growth (dv - pv * d.target) gv
        (countSleeve Sleeve.growth
          (sellSleeve Sleeve.dividend ((dv - pv * d.target) / dv) ps1).1)
        (sellSleeve Sleeve.dividend ((dv - pv * d.target) / dv) ps1).1).2.1 =
        dv - pv * d.target := by
    rw [buySleeve_spent _ _ _ _ _ hbG]
    by_cases hsv : 0 < gv
    · rw [if_pos hsv, hvalG2, div_self (ne_of_gt hsv), mul_one]
    · rw [if_neg hsv, hcnt2]
      have hc : ((countSleeve Sleeve.growth ps1 : ℚ)) ≠ 0 := by
        exact_mod_cast Nat.pos_iff_ne_zero.mp HnG
      rw [div_self hc, mul_one]
  have hvalD3 :
      sleeveValue Sleeve.dividend
        (buySleeve Sleeve.growth (dv - pv * d.target) gv
          (countSleeve Sleeve.growth
            (sellSleeve Sleeve.dividend ((dv - pv * d.target) / dv) ps1).1)
          (sellSleeve Sleeve.dividend ((dv - pv * d.target) / dv) ps1).1).1 =
        pv * d.target := by
    rw [buySleeve_val_other Sleeve.dividend Sleeve.growth (by decide),
      sellSleeve_val_self _ _ _ hprD, hdv]
    field_simp
  have hvalG3 :
      sleeveValue Sleeve.growth
        (buySleeve Sleeve.growth (dv - pv * d.target) gv
          (countSleeve Sleeve.growth
            (sellSleeve Sleeve.dividend ((dv - pv * d.target) / dv) ps1).1)
          (sellSleeve Sleeve.dividend ((dv - pv * d.target) / dv) ps1).1).1 =
        gv + (dv - pv * d.target) := by
    rw [buySleeve_val_self _ _ _ _ _ hbG, hvalG2, hspent]
  have hsk3 := buySleeve_skeleton Sleeve.growth (dv - pv * d.target) gv
    (countSleeve Sleeve.growth
      (sellSleeve Sleeve.dividend ((dv - pv * d.target) / dv) ps1).1)
    (sellSleeve Sleeve.dividend ((dv - pv * d.target) / dv) ps1).1
  have hprS3 : ∀ q ∈ (buySleeve Sleeve.growth (dv - pv * d.target) gv
      (countSleeve Sleeve.growth
        (sellSleeve Sleeve.dividend ((dv - pv * d.target) / dv) ps1).1)
      (sellSleeve Sleeve.dividend ((dv - pv * d.target) / dv) ps1).1).1,
      q.price.isSome := by
    intro q hq
    obtain ⟨p, hp, _⟩ :=
      skeleton_transfer hsk3 (P := fun _ pr => ∃ p, pr = some p ∧ p ≠ 0)
        Hpr2 q hq
    simp [hp]
  have hcv3 : computeValues (buySleeve Sleeve.growth (dv - pv * d.target) gv
      (countSleeve Sleeve.growth
        (sellSleeve Sleeve.dividend ((dv - pv * d.target) / dv) ps1).1)
      (sellSleeve Sleeve.dividend ((dv - pv * d.target) / dv) ps1).1).1 =
      some (pv * d.target, gv + (dv - pv * d.target)) := by
    rw [computeValues_eq _ hprS3, hvalD3, hvalG3]
  refine ⟨(buySleeve Sleeve.growth (dv - pv * d.target) gv
      (countSleeve Sleeve.growth
        (sellSleeve Sleeve.dividend ((dv - pv * d.target) / dv) ps1).1)
      (sellSleeve Sleeve.dividend ((dv - pv * d.target) / dv) ps1).1).1,
    ?_, hvalD3, hvalG3, hcash2, hspent⟩
  simp only [sellBranch, if_pos Hdv, hflag2, Bool.false_eq_true, if_false,
    hflag3, if_neg hpvne, hcv3, hcash2, hspent]
  rw [finishDay_some ic spyFirst _ _ d _ _ _ _ sp hsp hsf]
  have harg : cash0 + (dv - pv * d.target) - (dv - pv * d.target) +
      (pv * d.target) + (gv + (dv - pv * d.target)) = pv := by
    rw [hpv]; ring
  have hcargs : cash0 + (dv - pv * d.target) - (dv - pv * d.target) = cash0 := by
    ring
  rw [harg, hcargs]

theorem buyBranch_spec (ic spyFirst : ℚ) (ps1 : List DPos) (cash0 : ℚ)
    (d : DayInput) (acc1 : TrackState) (dv gv pv sp : ℚ)
    (hdv : sleeveValue Sleeve.dividend ps1 = dv)
    (hgv : sleeveValue Sleeve.growth ps1 = gv)
    (hpv : pv = cash0 + dv + gv)
    (Hpr : ∀ q ∈ ps1, ∃ p, q.price = some p ∧ p ≠ 0)
    (HnD : 0 < countSleeve Sleeve.dividend ps1)
    (Hpv : 0 < pv)
    (hsp : d.spyPrice = some sp) (hsf : spyFirst ≠ 0) :
    ∃ psF : List DPos,
      buyBranch ic spyFirst ps1 cash0 d acc1 dv gv pv (dv / pv) =
        ({ positions := unequip psF,
           cash := cash0 + (if 0 < gv then pv * d.target - dv else 0) -
             (pv * d.target - dv) },
          recordSnapshot
            { acc1 with
              rebalancingEvents := acc1.rebalancingEvents ++
                [{ date := d.date, sellDividend := false,
                   condition := d.condition, targetAlloc := d.target,
                   excessMoved := acc1.excessMem.getD (pv * d.target - dv),
                   allocBefore := dv / pv,
                   allocAfter := pv * d.target / pv }] }
            d.date pv (ic * (sp / spyFirst)) (pv * d.target)
            (gv - (if 0 < gv then pv * d.target - dv else 0))) ∧
      sleeveValue Sleeve.dividend psF = pv * d.target ∧
      sleeveValue Sleeve.growth psF =
        gv - (if 0 < gv then pv * d.target - dv else 0) ∧
      (sellSleeve Sleeve.growth
        (if 0 < gv then (pv * d.target - dv) / gv else 0) ps1).2.1 =
        (if 0 < gv then pv * d.target - dv else 0) ∧
      (buySleeve Sleeve.dividend (pv * d.target - dv) dv
        (countSleeve Sleeve.dividend
          (sellSleeve Sleeve.growth
            (if 0 < gv then (pv * d.target - dv) / gv else 0) ps1).1)
        (sellSleeve Sleeve.growth
          (if 0 < gv then (pv * d.target - dv) / gv else 0) ps1).1).2.1 =
        pv * d.target - dv := by
  have hpvne : pv ≠ 0 := ne_of_gt Hpv
  have hprS : ∀ q ∈ ps1, q.price.isSome := by
    intro q hq
    obtain ⟨p, hp, _⟩ := Hpr q hq
    simp [hp]
  have hprG : ∀ q ∈ ps1, q.sleeve = Sleeve.growth → q.price.isSome :=
    fun q hq _ => hprS q hq
  have hflag2 :
      (sellSleeve Sleeve.growth
        (if 0 < gv then (pv * d.target - dv) / gv else 0) ps1).2.2 = false :=
    sellSleeve_flag _ _ _ hprG
  have hcash2 :
      (sellSleeve Sleeve.growth
        (if 0 < gv then (pv * d.target - dv) / gv else 0) ps1).2.1 =
        (if 0 < gv then pv * d.target - dv else 0) := by
    rw [sellSleeve_cash _ _ _ hprG, hgv]
    by_cases hsv : 0 < gv
    · rw [if_pos hsv, if_pos hsv, div_mul_cancel₀ _ (ne_of_gt hsv)]
    · rw [if_neg hsv, if_neg hsv, zero_mul]
  have hsk2 := sellSleeve_skeleton Sleeve.growth
    (if 0 < gv then (pv * d.target - dv) / gv else 0) ps1
  have Hpr2 : ∀ q ∈ (sellSleeve Sleeve.growth
      (if 0 < gv then (pv * d.target - dv) / gv else 0) ps1).1,
      ∃ p, q.price = some p ∧ p ≠ 0 :=
    skeleton_transfer hsk2 (P := fun _ pr => ∃ p, pr = some p ∧ p ≠ 0)
      (fun q hq => Hpr q hq)
  have hbD : ∀ q ∈ (sellSleeve Sleeve.growth
      (if 0 < gv then (pv * d.target - dv) / gv else 0) ps1).1,
      q.sleeve = Sleeve.dividend → ∃ p, q.price = some p ∧ p ≠ 0 :=
    fun q hq _ => Hpr2 q hq
  have hvalD2 :
      sleeveValue Sleeve.dividend
        (sellSleeve Sleeve.growth
          (if 0 < gv then (pv * d.target - dv) / gv else 0) ps1).1 = dv := by
    rw [sellSleeve_val_other Sleeve.dividend Sleeve.growth (by decide) _ ps1, hdv]
  have hcnt2 :
      countSleeve Sleeve.dividend
        (sellSleeve Sleeve.growth
          (if 0 < gv then (pv * d.target - dv) / gv else 0) ps1).1 =
        countSleeve Sleeve.dividend ps1 :=
    countSleeve_sellSleeve _ _ _ _
  have hflag3 :
      (buySleeve Sleeve.dividend (pv * d.target - dv) dv
        (countSleeve Sleeve.dividend
          (sellSleeve Sleeve.growth
            (if 0 < gv then (pv * d.target - dv) / gv else 0) ps1).1)
        (sellSleeve Sleeve.growth
          (if 0 < gv then (pv * d.target - dv) / gv else 0) ps1).1).2.2 =
        false :=
    buySleeve_flag _ _ _ _ _ hbD
  have hspent :
      (buySleeve Sleeve.dividend (pv * d.target - dv) dv
        (countSleeve Sleeve.dividend
          (sellSleeve Sleeve.growth
            (if 0 < gv then (pv * d.target - dv) / gv else 0) ps1).1)
        (sellSleeve Sleeve.growth
          (if 0 < gv then (pv * d.target - dv) / gv else 0) ps1).1).2.1 =
        pv * d.target - dv := by
    rw [buySleeve_spent _ _ _ _ _ hbD]
    by_cases hsv : 0 < dv
    · rw [if_pos hsv, hvalD2, div_self (ne_of_gt hsv), mul_one]
    · rw [if_neg hsv, hcnt2]
      have hc : ((countSleeve Sleeve.dividend ps1 : ℚ)) ≠ 0 := by
        exact_mod_cast Nat.pos_iff_ne_zero.mp HnD
      rw [div_self hc, mul_one]
  have hvalD3 :
      sleeveValue Sleeve.dividend
        (buySleeve Sleeve.dividend (pv * d.target - dv) dv
          (countSleeve Sleeve.dividend
            (sellSleeve Sleeve.growth
              (if 0 < gv then (pv * d.target - dv) / gv else 0) ps1).1)
          (sellSleeve Sleeve.growth
            (if 0 < gv then (pv * d.target - dv) / gv else 0) ps1).1).1 =
        pv * d.target := by
    rw [buySleeve_val_self _ _ _ _ _ hbD, hvalD2, hspent]
    ring
  have hvalG3 :
      sleeveValue Sleeve.growth
        (buySleeve Sleeve.dividend (pv * d.target - dv) dv
          (countSleeve Sleeve.dividend
            (sellSleeve Sleeve.growth
              (if 0 < gv then (pv * d.target - dv) / gv else 0) ps1).1)
          (sellSleeve Sleeve.growth
            (if 0 < gv then (pv * d.target - dv) / gv else 0) ps1).1).1 =
        gv - (if 0 < gv then pv * d.target - dv else 0) := by
    rw [buySleeve_val_other Sleeve.growth Sleeve.dividend (by decide),
      sellSleeve_val_self _ _ _ hprG, hgv]
    by_cases hsv : 0 < gv
    · rw [if_pos hsv, if_pos hsv]
      field_simp
    · rw [if_neg hsv, if_neg hsv]
      ring
  have hsk3 := buySleeve_skeleton Sleeve.dividend (pv * d.target - dv) dv
    (countSleeve Sleeve.dividend
      (sellSleeve Sleeve.growth
        (if 0 < gv then (pv * d.target - dv) / gv else 0) ps1).1)
    (sellSleeve Sleeve.growth
      (if 0 < gv then (pv * d.target - dv) / gv else 0) ps1).1
  have hprS3 : ∀ q ∈ (buySleeve Sleeve.dividend (pv * d.target - dv) dv
      (countSleeve Sleeve.dividend
        (sellSleeve Sleeve.growth
          (if 0 < gv then (pv * d.target - dv) / gv else 0) ps1).1)
      (sellSleeve Sleeve.growth
        (if 0 < gv then (pv * d.target - dv) / gv else 0) ps1).1).1,
      q.price.isSome := by
    intro q hq
    obtain ⟨p, hp, _⟩ :=
      skeleton_transfer hsk3 (P := fun _ pr => ∃ p, pr = some p ∧ p ≠ 0)
        Hpr2 q hq
    simp [hp]
  have hcv3 : computeValues (buySleeve Sleeve.dividend (pv * d.target - dv) dv
      (countSleeve Sleeve.dividend
        (sellSleeve Sleeve.growth
          (if 0 < gv then (pv * d.target - dv) / gv else 0) ps1).1)
      (sellSleeve Sleeve.growth
        (if 0 < gv then (pv * d.target - dv) / gv else 0) ps1).1).1 =
      some (pv * d.target,
        gv - (if 0 < gv then pv * d.target - dv else 0)) := by
    rw [computeValues_eq _ hprS3, hvalD3, hvalG3]
  refine ⟨(buySleeve Sleeve.dividend (pv * d.target - dv) dv
      (countSleeve Sleeve.dividend
        (sellSleeve Sleeve.growth
          (if 0 < gv then (pv * d.target - dv) / gv else 0) ps1).1)
      (sellSleeve Sleeve.growth
        (if 0 < gv then (pv * d.target - dv) / gv else 0) ps1).1).1,
    ?_, hvalD3, hvalG3, hcash2, hspent⟩
  simp only [buyBranch, hflag2, Bool.false_eq_true, if_false,
    hflag3, if_neg hpvne, hcv3, hcash2, hspent]
  rw [finishDay_some ic spyFirst _ _ d _ _ _ _ sp hsp hsf]
  have harg : cash0 + (if 0 < gv then pv * d.target - dv else 0) -
      (pv * d.target - dv) + (pv * d.target) +
      (gv - (if 0 < gv then pv * d.target - dv else 0)) = pv := by
    by_cases hsv : 0 < gv
    · rw [if_pos hsv, hpv]; ring
    · rw [if_neg hsv, hpv]; ring
  rw [harg]

theorem allocDividend_eq (capital divAlloc : ℚ) (ws : List (ℚ × Option ℚ))
    (h : ∀ pr ∈ ws, pr.2 ≠ some 0) :
    allocDividend capital divAlloc ws =
      some (ws.filterMap
          (fun pr => pr.2.map
            (fun p => (Sleeve.dividend, capital * divAlloc * pr.1 / p))),
        (ws.map
          (fun pr => if pr.2.isSome then capital * divAlloc * pr.1 else 0)).sum) := by
  induction ws with
  | nil => rfl
  | cons pr rest ih =>
    obtain ⟨w, po⟩ := pr
    have ih2 := ih (fun r hr => h r (by simp [hr]))
    cases po with
    | none => simp [allocDividend, ih2]
    | some p =>
      have hp : p ≠ 0 := by
        have := h (w, some p) (by simp)
        simpa using this
      simp [allocDividend, hp, ih2]

theorem allocDividend_zero (capital divAlloc : ℚ) (ws : List (ℚ × Option ℚ))
    (h : ∃ w, (w, some (0:ℚ)) ∈ ws) :
    allocDividend capital divAlloc ws = none := by
  induction ws with
  | nil => simp at h
  | cons pr rest ih =>
    obtain ⟨w, hw⟩ := h
    rcases List.mem_cons.1 hw with h1 | h2
    · rw [← h1]
      simp [allocDividend]
    · obtain ⟨w2, po⟩ := pr
      have ih2 := ih ⟨w, h2⟩
      cases po with
      | none => simpa [allocDividend] using ih2
      | some p =>
        by_cases hp : p = 0 <;> simp [allocDividend, hp, ih2]

theorem allocGrowth_eq (capital growthAlloc gw : ℚ) (gps : List ℚ)
    (h : ∀ p ∈ gps, p ≠ 0) :
    allocGrowth capital growthAlloc gw gps =
      some (gps.map (fun p => (Sleeve.growth, capital * growthAlloc * gw / p)),
        (gps.map (fun _ => capital * growthAlloc * gw)).sum) := by
  induction gps with
  | nil => rfl
  | cons p rest ih =>
    have hp : p ≠ 0 := h p (by simp)
    have ih2 := ih (fun r hr => h r (by simp [hr]))
    simp [allocGrowth, hp, ih2]

theorem allocSpent_of_present (c : ℚ) (ws : List (ℚ × Option ℚ))
    (h : ∀ pr ∈ ws, pr.2.isSome) :
    (ws.map (fun pr => if pr.2.isSome then c * pr.1 else 0)).sum =
      c * (ws.map Prod.fst).sum := by
  induction ws with
  | nil => simp
  | cons pr rest ih =>
    have hp : pr.2.isSome := h pr (by simp)
    have ih2 := ih (fun r hr => h r (by simp [hr]))
    simp [hp, ih2]
    ring

theorem processDividends_get (ps : List DPos) (k : ℕ)
    (hok : (processDividends ps).2 = false) :
    (processDividends ps).1[k]? = (ps[k]?).map (fun q => (reinvestOne q).getD q) := by
  induction ps generalizing k with
  | nil => simp [processDividends]
  | cons q rest ih =>
    cases hr : reinvestOne q with
    | none => simp [processDividends, hr] at hok
    | some q2 =>
      have hok2 : (processDividends rest).2 = false := by
        simpa [processDividends, hr] using hok
      cases k with
      | zero => simp [processDividends, hr]
      | succ n => simp [processDividends, hr, ih n hok2]

theorem finishDay_cash (ic spyFirst : ℚ) (ps : List DPos) (cash : ℚ)
    (d : DayInput) (acc : TrackState) (pv dv gv : ℚ) :
    (finishDay ic spyFirst ps cash d acc pv dv gv).1 =
      { positions := unequip ps, cash := cash } := by
  unfold finishDay
  rcases d.spyPrice with _ | sp
  · rfl
  · by_cases hz : spyFirst = 0 <;> simp [hz]

theorem recordSnapshot_snapLengths (acc : TrackState) (date : ℕ)
    (pv spyVal dv gv : ℚ) (h : snapLengthsEq acc) :
    snapLengthsEq (recordSnapshot acc date pv spyVal dv gv) := by
  obtain ⟨h1, h2, h3, h4⟩ := h
  refine ⟨?_, ?_, ?_, ?_⟩ <;>
    simp [recordSnapshot, h1, h2, h3, h4]

theorem finishDay_snapLengths (ic spyFirst : ℚ) (ps : List DPos) (cash : ℚ)
    (d : DayInput) (acc : TrackState) (pv dv gv : ℚ)
    (h : snapLengthsEq acc) :
    snapLengthsEq (finishDay ic spyFirst ps cash d acc pv dv gv).2 := by
  unfold finishDay
  rcases d.spyPrice with _ | sp
  · exact h
  · by_cases hz : spyFirst = 0
    · simpa [hz] using h
    · simpa [hz] using recordSnapshot_snapLengths acc d.date pv _ dv gv h

theorem pushConditions_snapLengths (acc : TrackState) (c : Regime) (t : ℚ)
    (h : snapLengthsEq acc) : snapLengthsEq (pushConditions acc c t) := h

theorem sellBranch_snapLengths (ic spyFirst : ℚ) (ps1 : List DPos)
    (cash0 : ℚ) (d : DayInput) (acc1 : TrackState) (dv gv pv cda : ℚ)
    (h : snapLengthsEq acc1) :
    snapLengthsEq (sellBranch ic spyFirst ps1 cash0 d acc1 dv gv pv cda).2 := by
  simp only [sellBranch]
  repeat' split
  all_goals first
    | exact h
    | exact finishDay_snapLengths _ _ _ _ _ _ _ _ _ h

theorem buyBranch_snapLengths (ic spyFirst : ℚ) (ps1 : List DPos)
    (cash0 : ℚ) (d : DayInput) (acc1 : TrackState) (dv gv pv cda : ℚ)
    (h : snapLengthsEq acc1) :
    snapLengthsEq (buyBranch ic spyFirst ps1 cash0 d acc1 dv gv pv cda).2 := by
  simp only [buyBranch]
  repeat' split
  all_goals first
    | exact h
    | exact finishDay_snapLengths _ _ _ _ _ _ _ _ _ h

theorem stepCore_snapLengths (ic spyFirst : ℚ) (ps0 : List DPos) (cash0 : ℚ)
    (d : DayInput) (acc0 : TrackState) (h : snapLengthsEq acc0) :
    snapLengthsEq (stepCore ic spyFirst ps0 cash0 d acc0).2 := by
  simp only [stepCore]
  repeat' split
  all_goals first
    | exact h
    | exact sellBranch_snapLengths _ _ _ _ _ _ _ _ _ _ h
    | exact buyBranch_snapLengths _ _ _ _ _ _ _ _ _ _ h
    | exact finishDay_snapLengths _ _ _ _ _ _ _ _ _ h

theorem runDates_snapLengths (ic spyFirst : ℚ) (st : Ledger × TrackState)
    (ds : List DayInput) (h : snapLengthsEq st.2) :
    snapLengthsEq (runDates ic spyFirst st ds).2 := by
  induction ds generalizing st with
  | nil => exact h
  | cons d rest ih =>
    exact ih _ (stepCore_snapLengths _ _ _ _ _ _ h)

/-! ### Claim theorems -/

/-- C2: for every date and benchmark series (with a nonnegative threshold,
as in the source's fixed `0.05`, and a nonzero past price, as the data
model's positive prices guarantee), `detect_market_condition` returns
`(sideways, 0.70)` when the date is not found (a lookup failure caught by
the bare `except`) or when fewer than `lookback_days` prior observations
exist; otherwise, with `change = (price[i] - price[i - lb]) / price[i - lb]`
computed by index offset, it returns `(bull, 0.55)` when
`change > threshold`, `(bear, 0.85)` when `change < -threshold`, and
`(sideways, 0.70)` otherwise.  Being a total Lean function, it never
raises. -/
theorem C2_regime_classification (date : ℕ) (spy : List (ℕ × ℚ)) (lb : ℕ)
    (th : ℚ) (hth : 0 ≤ th) :
    (spy.findIdx? (fun r => r.1 = date) = none →
      detect_market_condition date spy lb th = (Regime.sideways, 7/10)) ∧
    (∀ i, spy.findIdx? (fun r => r.1 = date) = some i → i < lb →
      detect_market_condition date spy lb th = (Regime.sideways, 7/10)) ∧
    (∀ i cur past, spy.findIdx? (fun r => r.1 = date) = some i → ¬ i < lb →
      spy[i]? = some cur → spy[i - lb]? = some past → past.2 ≠ 0 →
      ((th < (cur.2 - past.2) / past.2 →
        detect_market_condition date spy lb th = (Regime.bull, 11/20)) ∧
       ((cur.2 - past.2) / past.2 < -th →
        detect_market_condition date spy lb th = (Regime.bear, 17/20)) ∧
       (¬ th < (cur.2 - past.2) / past.2 →
        ¬ (cur.2 - past.2) / past.2 < -th →
        detect_market_condition date spy lb th = (Regime.sideways, 7/10)))) := by
  refine ⟨?_, ?_, ?_⟩
  · intro hfi
    simp [detect_market_condition, hfi]
  · intro i hfi hlb
    simp [detect_market_condition, hfi, hlb]
  · intro i cur past hfi hlb hcur hpast hz
    refine ⟨?_, ?_, ?_⟩
    · intro hch
      simp [detect_market_condition, hfi, hlb, hcur, hpast, hz, hch]
    · intro hch
      have hnb : ¬ th < (cur.2 - past.2) / past.2 := by
        intro hlt
        linarith
      simp [detect_market_condition, hfi, hlb, hcur, hpast, hz, hnb, hch]
    · intro h1 h2
      simp [detect_market_condition, hfi, hlb, hcur, hpast, hz, h1, h2]

/-- Witness for C2: a 10% rise over a 1-step lookback with threshold 5%
classifies as `(bull, 0.55)`. -/
theorem C2_regime_classification_witness :
    detect_market_condition 1 [(0, 100), (1, 110)] 1 (1/20) =
      (Regime.bull, 11/20) :=
  ((C2_regime_classification 1 [(0, 100), (1, 110)] 1 (1/20)
      (by norm_num)).2.2 1 (1, 110) (0, 100) (by decide) (by decide)
      (by decide) (by decide) (by norm_num)).1 (by norm_num)

/-- C6 counterexample: with a weight vector summing to 1/2 (not 1) and a
valid price, initialization succeeds (returning positions and a large cash
residual) instead of failing — no weight-sum validation or `ConfigError`
exists anywhere in the source. -/
theorem C6_counterexample :
    ((1:ℚ)/2) ≠ 1 ∧
    initialAllocation 100000 (7/10) (3/10) [((1:ℚ)/2, some 50)] [] =
      some ([(Sleeve.dividend, 700)], 65000) := by
  constructor
  · norm_num
  · norm_num [initialAllocation, allocDividend, allocGrowth]

/-- C6 (amended): initialization never validates the weight sum and cannot
fail for that reason; for any weight vector whose entries all have nonzero
prices it succeeds, giving each dividend symbol
`shares = capital * dividend_alloc * weight / price` (value proportional to
weight), and when the weights sum to 1 the total capital spent on the
dividend sleeve is exactly `capital * dividend_alloc`. -/
theorem C6_weight_sum_allocation (capital divAlloc growthAlloc : ℚ)
    (ws : List (ℚ × Option ℚ)) (gps : List ℚ)
    (hall : ∀ pr ∈ ws, pr.2.isSome)
    (hnz : ∀ pr ∈ ws, pr.2 ≠ some 0)
    (hg : ∀ p ∈ gps, p ≠ 0)
    (hsum : (ws.map Prod.fst).sum = 1) :
    allocDividend capital divAlloc ws =
      some (ws.filterMap
          (fun pr => pr.2.map
            (fun p => (Sleeve.dividend, capital * divAlloc * pr.1 / p))),
        capital * divAlloc) ∧
    (initialAllocation capital divAlloc growthAlloc ws gps).isSome = true := by
  have h1 := allocDividend_eq capital divAlloc ws hnz
  have h2 := allocSpent_of_present (capital * divAlloc) ws hall
  rw [h2, hsum, mul_one] at h1
  refine ⟨h1, ?_⟩
  simp [initialAllocation, h1,
    allocGrowth_eq capital growthAlloc (growthWeightPerStock gps) gps hg]

/-- Witness for C6 (amended): two dividend symbols with weights 1/2 each at
prices 50 and 25, one growth symbol at price 20. -/
theorem C6_weight_sum_allocation_witness :
    allocDividend 100000 (7/10) [((1:ℚ)/2, some 50), ((1:ℚ)/2, some 25)] =
      some ([(Sleeve.dividend, 700), (Sleeve.dividend, 1400)], 70000) ∧
    (initialAllocation 100000 (7/10) (3/10)
      [((1:ℚ)/2, some 50), ((1:ℚ)/2, some 25)] [20]).isSome = true := by
  have h := C6_weight_sum_allocation 100000 (7/10) (3/10)
    [((1:ℚ)/2, some 50), ((1:ℚ)/2, some 25)] [20]
    (by intro pr hpr; fin_cases hpr <;> decide)
    (by intro pr hpr; fin_cases hpr <;> decide)
    (by intro p hp; fin_cases hp; norm_num)
    (by norm_num)
  refine ⟨?_, h.2⟩
  rw [h.1]
  norm_num [List.filterMap_cons]

/-- C7 counterexample: a negative initial price does not fail — the
position is created with a negative share count (-1400 shares here) and the
run proceeds; no `DataError` exists in the source. -/
theorem C7_counterexample :
    initialAllocation 100000 (7/10) (3/10) [((1:ℚ), some (-50))] [20] =
      some ([(Sleeve.dividend, -1400), (Sleeve.growth, 1500)], 0) := by
  norm_num [initialAllocation, allocDividend, allocGrowth, growthWeightPerStock]

/-- C7 (amended): during initial allocation a zero price raises an
unhandled `ZeroDivisionError` (initialization fails, though with no
`DataError` type); a missing price does not fail — the `if symbol in
dividend_data` guard silently skips the symbol; any nonzero price (positive
or negative) succeeds with `share_count = allocated_value / initial_price`,
so only the positive-price clause of the claim holds as stated. -/
theorem C7_initial_price_policy (capital divAlloc : ℚ)
    (ws : List (ℚ × Option ℚ)) :
    ((∃ w, (w, some (0:ℚ)) ∈ ws) → allocDividend capital divAlloc ws = none) ∧
    ((∀ pr ∈ ws, pr.2 ≠ some 0) →
      allocDividend capital divAlloc ws =
        some (ws.filterMap
            (fun pr => pr.2.map
              (fun p => (Sleeve.dividend, capital * divAlloc * pr.1 / p))),
          (ws.map
            (fun pr => if pr.2.isSome then capital * divAlloc * pr.1 else 0)).sum)) :=
  ⟨allocDividend_zero capital divAlloc ws,
    allocDividend_eq capital divAlloc ws⟩

/-- Witness for C7 (amended): a zero price fails; a mixed list with a
missing price, a positive price and a negative price succeeds, skipping the
missing symbol and dividing by the price for the others. -/
theorem C7_initial_price_policy_witness :
    allocDividend 1000 (1/2) [((1:ℚ), some 0)] = none ∧
    allocDividend 1000 (1/2)
        [((1:ℚ)/4, none), ((1:ℚ)/2, some 10), ((1:ℚ)/4, some (-5))] =
      some ([(Sleeve.dividend, 25), (Sleeve.dividend, -25)], 375) := by
  constructor
  · exact (C7_initial_price_policy 1000 (1/2) [((1:ℚ), some 0)]).1
      ⟨1, by decide⟩
  · rw [(C7_initial_price_policy 1000 (1/2)
      [((1:ℚ)/4, none), ((1:ℚ)/2, some 10), ((1:ℚ)/4, some (-5))]).2
      (by intro pr hpr; fin_cases hpr <;> decide)]
    norm_num [List.filterMap_cons]

/-- C1 counterexample: a date on which the buy-dividend branch fires while
the growth sleeve's value is zero (cash 50, one dividend position worth 20,
one growth position with zero shares).  The trade moves
`amount = total * target - dividend = 29` into the dividend sleeve and a
`RebalanceEvent` for 29 is logged, but nothing is moved "the other way"
out of the growth sleeve: its value stays 0 (not `0 - 29`) and the 29 is
funded from cash (50 → 21), contrary to the claim's description of the
buy-dividend branch. -/
theorem C1_counterexample :
    (stepDate 100 1 (⟨[(Sleeve.dividend, 2), (Sleeve.growth, 0)], 50⟩, initTrack)
        ⟨3, [some 10, some 1], [none, none], some 1, Regime.sideways, 7/10⟩).2.rebalancingEvents.map
        (fun e => e.excessMoved) = [29] ∧
    (stepDate 100 1 (⟨[(Sleeve.dividend, 2), (Sleeve.growth, 0)], 50⟩, initTrack)
        ⟨3, [some 10, some 1], [none, none], some 1, Regime.sideways, 7/10⟩).2.growthValues = [0] ∧
    ¬ (stepDate 100 1 (⟨[(Sleeve.dividend, 2), (Sleeve.growth, 0)], 50⟩, initTrack)
        ⟨3, [some 10, some 1], [none, none], some 1, Regime.sideways, 7/10⟩).2.growthValues = [0 - 29] ∧
    (stepDate 100 1 (⟨[(Sleeve.dividend, 2), (Sleeve.growth, 0)], 50⟩, initTrack)
        ⟨3, [some 10, some 1], [none, none], some 1, Regime.sideways, 7/10⟩).1.cash = 21 := by
  norm_num [stepDate, stepCore, equip, processDividends, reinvestOne, computeValues,
    pushConditions, sellBranch, buyBranch, sellSleeve, buySleeve, countSleeve,
    finishDay, recordSnapshot, unequip, initTrack]

/-- C1 (amended): for a date with all prices available and nonzero, at
least one position in each sleeve, a nonnegative target and positive total
value `pv = cash + dv + gv`: a rebalancing event is logged if and only if
the dividend fraction `dv / pv` lies outside the band
`[target - 0.05, target + 0.05]`; the sell-dividend branch leaves the
dividend sleeve at exactly `pv * target` and adds the excess
`dv - pv * target` to the growth sleeve; the buy-dividend branch also
leaves the dividend sleeve at exactly `pv * target`, and reduces the
growth sleeve by the deficit `pv * target - dv` provided the growth
sleeve's value is positive (otherwise the deficit is funded from cash);
in-band, no trade occurs (positions, cash and the event log are
untouched); and after either trade the recomputed dividend fraction equals
the target exactly. -/
theorem C1_tolerance_band (ic spyFirst : ℚ) (ps0 ps1 : List DPos)
    (cash0 : ℚ) (d : DayInput) (acc0 : TrackState) (dv gv sp : ℚ)
    (hre : processDividends ps0 = (ps1, false))
    (hdv : sleeveValue Sleeve.dividend ps1 = dv)
    (hgv : sleeveValue Sleeve.growth ps1 = gv)
    (Hpr : ∀ q ∈ ps1, ∃ p, q.price = some p ∧ p ≠ 0)
    (HnD : 0 < countSleeve Sleeve.dividend ps1)
    (HnG : 0 < countSleeve Sleeve.growth ps1)
    (Ht : 0 ≤ d.target)
    (Hpv : 0 < cash0 + dv + gv)
    (hsp : d.spyPrice = some sp) (hsf : spyFirst ≠ 0) :
    ((stepCore ic spyFirst ps0 cash0 d acc0).2.rebalancingEvents.length =
        acc0.rebalancingEvents.length + 1 ↔
      (d.target + 5/100 < dv / (cash0 + dv + gv) ∨
        dv / (cash0 + dv + gv) < d.target - 5/100)) ∧
    (d.target + 5/100 < dv / (cash0 + dv + gv) →
      (stepCore ic spyFirst ps0 cash0 d acc0).2.dividendValues =
        acc0.dividendValues ++ [(cash0 + dv + gv) * d.target] ∧
      (stepCore ic spyFirst ps0 cash0 d acc0).2.growthValues =
        acc0.growthValues ++ [gv + (dv - (cash0 + dv + gv) * d.target)] ∧
      (stepCore ic spyFirst ps0 cash0 d acc0).2.portfolioValues =
        acc0.portfolioValues ++ [cash0 + dv + gv] ∧
      (cash0 + dv + gv) * d.target / (cash0 + dv + gv) = d.target) ∧
    (dv / (cash0 + dv + gv) < d.target - 5/100 →
      (stepCore ic spyFirst ps0 cash0 d acc0).2.dividendValues =
        acc0.dividendValues ++ [(cash0 + dv + gv) * d.target] ∧
      (0 < gv →
        (stepCore ic spyFirst ps0 cash0 d acc0).2.growthValues =
          acc0.growthValues ++ [gv - ((cash0 + dv + gv) * d.target - dv)]) ∧
      (stepCore ic spyFirst ps0 cash0 d acc0).2.portfolioValues =
        acc0.portfolioValues ++ [cash0 + dv + gv] ∧
      (cash0 + dv + gv) * d.target / (cash0 + dv + gv) = d.target) ∧
    (¬ d.target + 5/100 < dv / (cash0 + dv + gv) →
      ¬ dv / (cash0 + dv + gv) < d.target - 5/100 →
      (stepCore ic spyFirst ps0 cash0 d acc0).2.rebalancingEvents =
        acc0.rebalancingEvents ∧
      (stepCore ic spyFirst ps0 cash0 d acc0).1.positions = unequip ps1 ∧
      (stepCore ic spyFirst ps0 cash0 d acc0).1.cash = cash0 ∧
      (stepCore ic spyFirst ps0 cash0 d acc0).2.dividendValues =
        acc0.dividendValues ++ [dv]) := by
  have hprS : ∀ q ∈ ps1, q.price.isSome := by
    intro q hq
    obtain ⟨p, hp, _⟩ := Hpr q hq
    simp [hp]
  have hdisp := stepCore_dispatch ic spyFirst ps0 ps1 cash0 d acc0 dv gv
    hre hprS hdv hgv Hpv
  have hfr : (cash0 + dv + gv) * d.target / (cash0 + dv + gv) = d.target :=
    mul_div_cancel_left₀ _ (ne_of_gt Hpv)
  by_cases h1 : d.target + 5/100 < dv / (cash0 + dv + gv)
  · obtain ⟨psF, heq, hD, hG, hc2, hc3⟩ := sellBranch_spec ic spyFirst ps1
      cash0 d (pushConditions acc0 d.condition d.target) dv gv
      (cash0 + dv + gv) sp hdv hgv rfl Hpr HnG Ht Hpv h1 hsp hsf
    rw [hdisp, if_pos h1, heq]
    refine ⟨⟨fun _ => Or.inl h1, fun _ => ?_⟩, fun _ => ⟨?_, ?_, ?_, hfr⟩,
      fun h2 => absurd h2 (by intro h2; linarith), fun hn1 _ => absurd h1 hn1⟩ <;>
      simp [recordSnapshot, pushConditions]
  · by_cases h2 : dv / (cash0 + dv + gv) < d.target - 5/100
    · obtain ⟨psF, heq, hD, hG, hc2, hc3⟩ := buyBranch_spec ic spyFirst ps1
        cash0 d (pushConditions acc0 d.condition d.target) dv gv
        (cash0 + dv + gv) sp hdv hgv rfl Hpr HnD Hpv hsp hsf
      rw [hdisp, if_neg h1, if_pos h2, heq]
      refine ⟨⟨fun _ => Or.inr h2, fun _ => ?_⟩, fun h1' => absurd h1' h1,
        fun _ => ⟨?_, fun hgp => ?_, ?_, hfr⟩, fun _ hn2 => absurd h2 hn2⟩
      · simp [recordSnapshot, pushConditions]
      · simp [recordSnapshot, pushConditions]
      · simp [recordSnapshot, pushConditions, hgp]
      · simp [recordSnapshot, pushConditions]
    · rw [hdisp, if_neg h1, if_neg h2,
        finishDay_some ic spyFirst ps1 cash0 d _ _ _ _ sp hsp hsf]
      refine ⟨⟨fun hL => ?_, fun ho => ?_⟩, fun h1' => absurd h1' h1,
        fun h2' => absurd h2' h2, fun _ _ => ⟨?_, ?_, ?_, ?_⟩⟩
      · exfalso
        simp [recordSnapshot, pushConditions] at hL
      · rcases ho with ho | ho
        · exact absurd ho h1
        · exact absurd ho h2
      all_goals simp [recordSnapshot, pushConditions]

/-- Witness for C1 (amended): dividend fraction 0.70 against a bull target
0.55: the sell-dividend branch fires and the snapshot shows the dividend
sleeve at exactly `100 * 0.55 = 55`. -/
theorem C1_tolerance_band_witness :
    (stepCore 100 1
        [⟨Sleeve.dividend, 70, some 1, none⟩, ⟨Sleeve.growth, 30, some 1, none⟩]
        0 ⟨1, [some 1, some 1], [none, none], some 1, Regime.bull, 11/20⟩
        initTrack).2.dividendValues =
      initTrack.dividendValues ++ [(0 + 70 + 30) * (11/20)] :=
  ((C1_tolerance_band 100 1
      [⟨Sleeve.dividend, 70, some 1, none⟩, ⟨Sleeve.growth, 30, some 1, none⟩]
      [⟨Sleeve.dividend, 70, some 1, none⟩, ⟨Sleeve.growth, 30, some 1, none⟩]
      0 ⟨1, [some 1, some 1], [none, none], some 1, Regime.bull, 11/20⟩
      initTrack 70 30 1
      (by decide)
      (by norm_num [sleeveValue])
      (by norm_num [sleeveValue])
      (by intro q hq; simp at hq; rcases hq with h | h <;> subst h <;>
          exact ⟨1, rfl, by norm_num⟩)
      (by decide) (by decide) (by norm_num) (by norm_num) rfl
      (by norm_num)).2.1 (by norm_num)).1

/-- C3: for every dividend-sleeve position with a payment recorded for the
date and an available nonzero price, and a date whose reinvestment phase
completes, reinvestment adds exactly `shares * amount / price` to that
position's share count; and the cash balance is untouched by the step
whenever no rebalance fires (the reinvestment loop itself never touches
cash).  The spec's 100-share, \$1-dividend, \$50-price example yields 102
shares (see the witness). -/
theorem C3_dividend_reinvestment (ps0 : List DPos) (k : ℕ) (s p dvd : ℚ)
    (hq : ps0[k]? = some ⟨Sleeve.dividend, s, some p, some dvd⟩)
    (hp : p ≠ 0)
    (hok : (processDividends ps0).2 = false) :
    (processDividends ps0).1[k]? =
      some ⟨Sleeve.dividend, s + s * dvd / p, some p, some dvd⟩ ∧
    (∀ (ic spyFirst cash0 : ℚ) (d : DayInput) (acc0 : TrackState) (dv gv : ℚ),
      sleeveValue Sleeve.dividend (processDividends ps0).1 = dv →
      sleeveValue Sleeve.growth (processDividends ps0).1 = gv →
      (∀ q ∈ (processDividends ps0).1, q.price.isSome) →
      0 < cash0 + dv + gv →
      ¬ d.target + 5/100 < dv / (cash0 + dv + gv) →
      ¬ dv / (cash0 + dv + gv) < d.target - 5/100 →
      (stepCore ic spyFirst ps0 cash0 d acc0).1.cash = cash0) := by
  constructor
  · rw [processDividends_get ps0 k hok, hq]
    simp [reinvestOne, hp]
  · intro ic spyFirst cash0 d acc0 dv gv hdv hgv hprS Hpv h1 h2
    have hre : processDividends ps0 = ((processDividends ps0).1, false) :=
      Prod.ext rfl hok
    rw [stepCore_dispatch ic spyFirst ps0 _ cash0 d acc0 dv gv hre hprS hdv
      hgv Hpv, if_neg h1, if_neg h2, finishDay_cash]

/-- Witness for C3: the spec's own example — 100 shares, a \$1-per-share
dividend, price \$50 — gains 2 shares, and `100 + 100 * 1 / 50 = 102`. -/
theorem C3_dividend_reinvestment_witness :
    (processDividends [⟨Sleeve.dividend, 100, some 50, some 1⟩]).1[0]? =
      some ⟨Sleeve.dividend, 100 + 100 * 1 / 50, some 50, some 1⟩ ∧
    (100 : ℚ) + 100 * 1 / 50 = 102 :=
  ⟨(C3_dividend_reinvestment [⟨Sleeve.dividend, 100, some 50, some 1⟩] 0
      100 50 1 (by decide) (by norm_num) (by decide)).1,
    by norm_num⟩

/-- C4 counterexample: a buy-dividend rebalance whose source sleeve
(growth) has zero value: cash 60, one dividend position worth 20, one
growth position with zero shares, target 0.70.  The branch fires
(fraction 0.25 < 0.65), the growth sale leg raises no cash
(`sell_fraction` falls back to 0, not to equal-weight), the purchase leg
still spends the full deficit 36, and cash ends at 24 ≠ 60: the cash
balance does not return to its pre-call value. -/
theorem C4_counterexample :
    (stepDate 100 1 (⟨[(Sleeve.dividend, 2), (Sleeve.growth, 0)], 60⟩, initTrack)
        ⟨4, [some 10, some 1], [none, none], some 1, Regime.sideways, 7/10⟩).2.rebalancingEvents.length = 1 ∧
    (stepDate 100 1 (⟨[(Sleeve.dividend, 2), (Sleeve.growth, 0)], 60⟩, initTrack)
        ⟨4, [some 10, some 1], [none, none], some 1, Regime.sideways, 7/10⟩).1.cash = 24 ∧
    ¬ (stepDate 100 1 (⟨[(Sleeve.dividend, 2), (Sleeve.growth, 0)], 60⟩, initTrack)
        ⟨4, [some 10, some 1], [none, none], some 1, Regime.sideways, 7/10⟩).1.cash = 60 := by
  norm_num [stepDate, stepCore, equip, processDividends, reinvestOne, computeValues,
    pushConditions, sellBranch, buyBranch, sellSleeve, buySleeve, countSleeve,
    finishDay, recordSnapshot, unequip, initTrack]

/-- C4 (amended): under the hypotheses of C1, in the sell-dividend branch
the sale leg raises exactly the moved amount `dv - pv * target` and the
purchase leg spends exactly the same amount (including when the growth
sleeve's value is zero and the equal-weight fallback is used), so the cash
balance returns to its pre-call value; the same holds for the buy-dividend
branch provided the source (growth) sleeve's value is positive; and
in-band the cash balance is untouched. -/
theorem C4_cash_conservation (ic spyFirst : ℚ) (ps0 ps1 : List DPos)
    (cash0 : ℚ) (d : DayInput) (acc0 : TrackState) (dv gv sp : ℚ)
    (hre : processDividends ps0 = (ps1, false))
    (hdv : sleeveValue Sleeve.dividend ps1 = dv)
    (hgv : sleeveValue Sleeve.growth ps1 = gv)
    (Hpr : ∀ q ∈ ps1, ∃ p, q.price = some p ∧ p ≠ 0)
    (HnD : 0 < countSleeve Sleeve.dividend ps1)
    (HnG : 0 < countSleeve Sleeve.growth ps1)
    (Ht : 0 ≤ d.target)
    (Hpv : 0 < cash0 + dv + gv)
    (hsp : d.spyPrice = some sp) (hsf : spyFirst ≠ 0) :
    (d.target + 5/100 < dv / (cash0 + dv + gv) →
      (sellSleeve Sleeve.dividend
        ((dv - (cash0 + dv + gv) * d.target) / dv) ps1).2.1 =
        dv - (cash0 + dv + gv) * d.target ∧
      (buySleeve Sleeve.growth (dv - (cash0 + dv + gv) * d.target) gv
        (countSleeve Sleeve.growth
          (sellSleeve Sleeve.dividend
            ((dv - (cash0 + dv + gv) * d.target) / dv) ps1).1)
        (sellSleeve Sleeve.dividend
          ((dv - (cash0 + dv + gv) * d.target) / dv) ps1).1).2.1 =
        dv - (cash0 + dv + gv) * d.target ∧
      (stepCore ic spyFirst ps0 cash0 d acc0).1.cash = cash0) ∧
    (dv / (cash0 + dv + gv) < d.target - 5/100 → 0 < gv →
      (sellSleeve Sleeve.growth
        (if 0 < gv then ((cash0 + dv + gv) * d.target - dv) / gv else 0)
        ps1).2.1 = (cash0 + dv + gv) * d.target - dv ∧
      (buySleeve Sleeve.dividend ((cash0 + dv + gv) * d.target - dv) dv
        (countSleeve Sleeve.dividend
          (sellSleeve Sleeve.growth
            (if 0 < gv then ((cash0 + dv + gv) * d.target - dv) / gv else 0)
            ps1).1)
        (sellSleeve Sleeve.growth
          (if 0 < gv then ((cash0 + dv + gv) * d.target - dv) / gv else 0)
          ps1).1).2.1 = (cash0 + dv + gv) * d.target - dv ∧
      (stepCore ic spyFirst ps0 cash0 d acc0).1.cash = cash0) ∧
    (¬ d.target + 5/100 < dv / (cash0 + dv + gv) →
      ¬ dv / (cash0 + dv + gv) < d.target - 5/100 →
      (stepCore ic spyFirst ps0 cash0 d acc0).1.cash = cash0) := by
  have hprS : ∀ q ∈ ps1, q.price.isSome := by
    intro q hq
    obtain ⟨p, hp, _⟩ := Hpr q hq
    simp [hp]
  have hdisp := stepCore_dispatch ic spyFirst ps0 ps1 cash0 d acc0 dv gv
    hre hprS hdv hgv Hpv
  refine ⟨fun h1 => ?_, fun h2 hgp => ?_, fun h1 h2 => ?_⟩
  · obtain ⟨psF, heq, hD, hG, hc2, hc3⟩ := sellBranch_spec ic spyFirst ps1
      cash0 d (pushConditions acc0 d.condition d.target) dv gv
      (cash0 + dv + gv) sp hdv hgv rfl Hpr HnG Ht Hpv h1 hsp hsf
    rw [hdisp, if_pos h1, heq]
    exact ⟨hc2, hc3, rfl⟩
  · have h1 : ¬ d.target + 5/100 < dv / (cash0 + dv + gv) := by
      intro h1
      linarith
    obtain ⟨psF, heq, hD, hG, hc2, hc3⟩ := buyBranch_spec ic spyFirst ps1
      cash0 d (pushConditions acc0 d.condition d.target) dv gv
      (cash0 + dv + gv) sp hdv hgv rfl Hpr HnD Hpv hsp hsf
    rw [hdisp, if_neg h1, if_pos h2, heq]
    simp only [if_pos hgp] at hc2 hc3 ⊢
    refine ⟨hc2, hc3, ?_⟩
    show cash0 + ((cash0 + dv + gv) * d.target - dv) -
      ((cash0 + dv + gv) * d.target - dv) = cash0
    ring
  · rw [hdisp, if_neg h1, if_neg h2, finishDay_cash]

/-- Witness for C4 (amended): dividend fraction 0.80 against target 0.55:
the sell branch moves 25 out and 25 back in, and cash ends where it
started. -/
theorem C4_cash_conservation_witness :
    (stepCore 100 1
        [⟨Sleeve.dividend, 80, some 1, none⟩, ⟨Sleeve.growth, 20, some 1, none⟩]
        0 ⟨1, [some 1, some 1], [none, none], some 1, Regime.bull, 11/20⟩
        initTrack).1.cash = 0 :=
  ((C4_cash_conservation 100 1
      [⟨Sleeve.dividend, 80, some 1, none⟩, ⟨Sleeve.growth, 20, some 1, none⟩]
      [⟨Sleeve.dividend, 80, some 1, none⟩, ⟨Sleeve.growth, 20, some 1, none⟩]
      0 ⟨1, [some 1, some 1], [none, none], some 1, Regime.bull, 11/20⟩
      initTrack 80 20 1
      (by decide)
      (by norm_num [sleeveValue])
      (by norm_num [sleeveValue])
      (by intro q hq; simp at hq; rcases hq with h | h <;> subst h <;>
          exact ⟨1, rfl, by norm_num⟩)
      (by decide) (by decide) (by norm_num) (by norm_num) rfl
      (by norm_num)).1 (by norm_num)).2.2

/-- C5 counterexample: one position's price is missing on the date
(`none`), with another position fully priced.  The claim predicts that the
unpriced position contributes zero, the rest are valued normally, and the
date completes; instead the valuation raises (`computeValues = none`), the
whole date is aborted and no snapshot is recorded for it. -/
theorem C5_counterexample :
    computeValues
      (processDividends
        (equip ⟨[(Sleeve.dividend, 2), (Sleeve.growth, 1)], 0⟩
          ⟨7, [some 10, none], [none, none], some 1, Regime.sideways, 7/10⟩)).1 = none ∧
    (stepDate 100 1 (⟨[(Sleeve.dividend, 2), (Sleeve.growth, 1)], 0⟩, initTrack)
        ⟨7, [some 10, none], [none, none], some 1, Regime.sideways, 7/10⟩).2.dates = [] ∧
    ¬ (stepDate 100 1 (⟨[(Sleeve.dividend, 2), (Sleeve.growth, 1)], 0⟩, initTrack)
        ⟨7, [some 10, none], [none, none], some 1, Regime.sideways, 7/10⟩).2.dates = [7] ∧
    (stepDate 100 1 (⟨[(Sleeve.dividend, 2), (Sleeve.growth, 1)], 0⟩, initTrack)
        ⟨7, [some 10, none], [none, none], some 1, Regime.sideways, 7/10⟩).2.marketConditions = [] := by
  refine ⟨by decide, by decide, by decide, by decide⟩

/-- C5 (amended): a position whose price lookup fails raises inside the
valuation loop; the exception aborts the whole date — the tracking state is
completely unchanged (no snapshot, no market-condition entry), the ledger
keeps the reinvestment mutations already made — and the run continues with
the next date. -/
theorem C5_missing_price_aborts_date (ic spyFirst : ℚ) (led : Ledger)
    (d : DayInput) (acc0 : TrackState) (ps1 : List DPos) (ds : List DayInput)
    (hre : processDividends (equip led d) = (ps1, false))
    (hval : computeValues ps1 = none) :
    stepDate ic spyFirst (led, acc0) d =
      ({ positions := unequip ps1, cash := led.cash }, acc0) ∧
    runDates ic spyFirst ((led, acc0)) (d :: ds) =
      runDates ic spyFirst ({ positions := unequip ps1, cash := led.cash }, acc0) ds := by
  have h1 : stepDate ic spyFirst (led, acc0) d =
      ({ positions := unequip ps1, cash := led.cash }, acc0) := by
    simp only [stepDate, stepCore, hre, Bool.false_eq_true, if_false, hval]
  exact ⟨h1, by rw [runDates, h1]⟩

/-- Witness for C5 (amended): a two-position ledger whose second price is
missing on the date: the step returns the ledger unchanged (no payment was
due) with the tracking state untouched. -/
theorem C5_missing_price_aborts_date_witness :
    stepDate 100 1 (⟨[(Sleeve.dividend, 3), (Sleeve.growth, 4)], 5⟩, initTrack)
        ⟨9, [some 2, none], [none, none], some 1, Regime.sideways, 7/10⟩ =
      ({ positions := [(Sleeve.dividend, 3), (Sleeve.growth, 4)], cash := 5 },
        initTrack) ∧
    runDates 100 1 (⟨[(Sleeve.dividend, 3), (Sleeve.growth, 4)], 5⟩, initTrack)
        [⟨9, [some 2, none], [none, none], some 1, Regime.sideways, 7/10⟩] =
      ({ positions := [(Sleeve.dividend, 3), (Sleeve.growth, 4)], cash := 5 },
        initTrack) :=
  C5_missing_price_aborts_date 100 1
    ⟨[(Sleeve.dividend, 3), (Sleeve.growth, 4)], 5⟩
    ⟨9, [some 2, none], [none, none], some 1, Regime.sideways, 7/10⟩
    initTrack
    [⟨Sleeve.dividend, 3, some 2, none⟩, ⟨Sleeve.growth, 4, none, none⟩]
    [] (by decide) (by decide)

/-- C8: the stale-`excess_moved` bug evaluated at its failing input.  Two
dates, constant unit prices, ledger 70/30: date 1 classifies bull (target
0.55) and the sell-dividend branch moves 15 (logged correctly, and
`excess_dividend_value = 15` enters the Python locals); date 2 classifies
bear (target 0.85) and the buy-dividend branch trades 30 (growth sleeve 45
→ 15, dividend sleeve 55 → 85), but the logged `excess_moved` is the
stale 15, because line 318's `'excess_dividend_value' in locals()` test is
still true from date 1.  The event log reads `[15, 15]` instead of
`[15, 30]`. -/
theorem C8_stale_excess_moved :
    (runDates 100 1 (⟨[(Sleeve.dividend, 70), (Sleeve.growth, 30)], 0⟩, initTrack)
        [⟨1, [some 1, some 1], [none, none], some 1, Regime.bull, 11/20⟩,
         ⟨2, [some 1, some 1], [none, none], some 1, Regime.bear, 17/20⟩]).2.rebalancingEvents.map
        (fun e => e.excessMoved) = [15, 15] ∧
    (runDates 100 1 (⟨[(Sleeve.dividend, 70), (Sleeve.growth, 30)], 0⟩, initTrack)
        [⟨1, [some 1, some 1], [none, none], some 1, Regime.bull, 11/20⟩,
         ⟨2, [some 1, some 1], [none, none], some 1, Regime.bear, 17/20⟩]).2.growthValues = [45, 15] ∧
    (runDates 100 1 (⟨[(Sleeve.dividend, 70), (Sleeve.growth, 30)], 0⟩, initTrack)
        [⟨1, [some 1, some 1], [none, none], some 1, Regime.bull, 11/20⟩,
         ⟨2, [some 1, some 1], [none, none], some 1, Regime.bear, 17/20⟩]).2.dividendValues = [55, 85] ∧
    ¬ (runDates 100 1 (⟨[(Sleeve.dividend, 70), (Sleeve.growth, 30)], 0⟩, initTrack)
        [⟨1, [some 1, some 1], [none, none], some 1, Regime.bull, 11/20⟩,
         ⟨2, [some 1, some 1], [none, none], some 1, Regime.bear, 17/20⟩]).2.rebalancingEvents.map
        (fun e => e.excessMoved) = [15, 30] := by
  have h1 : stepDate 100 1
      (⟨[(Sleeve.dividend, 70), (Sleeve.growth, 30)], 0⟩, initTrack)
      ⟨1, [some 1, some 1], [none, none], some 1, Regime.bull, 11/20⟩ =
      (⟨[(Sleeve.dividend, 55), (Sleeve.growth, 45)], 0⟩,
        ⟨[1], [100], [100], [55], [45], [Regime.bull], [11/20],
          [⟨1, true, Regime.bull, 11/20, 15, 7/10, 11/20⟩], some 15⟩) := by
    norm_num [stepDate, stepCore, equip, processDividends, reinvestOne,
      computeValues, pushConditions, sellBranch, buyBranch, sellSleeve,
      buySleeve, countSleeve, finishDay, recordSnapshot, unequip, initTrack]
  have h2 : stepDate 100 1
      (⟨[(Sleeve.dividend, 55), (Sleeve.growth, 45)], 0⟩,
        ⟨[1], [100], [100], [55], [45], [Regime.bull], [11/20],
          [⟨1, true, Regime.bull, 11/20, 15, 7/10, 11/20⟩], some 15⟩)
      ⟨2, [some 1, some 1], [none, none], some 1, Regime.bear, 17/20⟩ =
      (⟨[(Sleeve.dividend, 85), (Sleeve.growth, 15)], 0⟩,
        ⟨[1, 2], [100, 100], [100, 100], [55, 85], [45, 15],
          [Regime.bull, Regime.bear], [11/20, 17/20],
          [⟨1, true, Regime.bull, 11/20, 15, 7/10, 11/20⟩,
           ⟨2, false, Regime.bear, 17/20, 15, 11/20, 17/20⟩], some 15⟩) := by
    norm_num [stepDate, stepCore, equip, processDividends, reinvestOne,
      computeValues, pushConditions, sellBranch, buyBranch, sellSleeve,
      buySleeve, countSleeve, finishDay, recordSnapshot, unequip]
  simp only [runDates, h1, h2]
  refine ⟨by decide, by decide, by decide, by decide⟩

/-- C9: per-date failure handling is not atomic.  A date on which the
dividend position reinvests a payment, the sell-dividend branch fires and
completes its sale leg, and then the growth buy leg raises
(`ZeroDivisionError` on the zero growth price): the resulting state keeps
the reinvested shares, the partially executed rebalance (dividend shares
reduced, sale proceeds sitting in cash) and the `excess_dividend_value`
local, while the date appends no snapshot and no event; and the loop
carries exactly this state into every subsequent date. -/
theorem C9_failed_date_keeps_mutations (ic spyFirst : ℚ)
    (s g cash0 dvd p t : ℚ) (cond : Regime) (dt : ℕ) (spyP : Option ℚ)
    (acc0 : TrackState)
    (hp : p ≠ 0) (Ht : 0 ≤ t)
    (Hpv : 0 < cash0 + (s + s * dvd / p) * p)
    (Hband : t + 5/100 <
      (s + s * dvd / p) * p / (cash0 + (s + s * dvd / p) * p)) :
    stepDate ic spyFirst
        (⟨[(Sleeve.dividend, s), (Sleeve.growth, g)], cash0⟩, acc0)
        ⟨dt, [some p, some 0], [some dvd, none], spyP, cond, t⟩ =
      (⟨[(Sleeve.dividend,
            (s + s * dvd / p) -
              (s + s * dvd / p) *
                (((s + s * dvd / p) * p - (cash0 + (s + s * dvd / p) * p) * t) /
                  ((s + s * dvd / p) * p))),
          (Sleeve.growth, g)],
         cash0 + ((s + s * dvd / p) * p - (cash0 + (s + s * dvd / p) * p) * t)⟩,
       { pushConditions acc0 cond t with
         excessMem := some
           ((s + s * dvd / p) * p - (cash0 + (s + s * dvd / p) * p) * t) }) ∧
    (∀ ds : List DayInput,
      runDates ic spyFirst
          (⟨[(Sleeve.dividend, s), (Sleeve.growth, g)], cash0⟩, acc0)
          (⟨dt, [some p, some 0], [some dvd, none], spyP, cond, t⟩ :: ds) =
        runDates ic spyFirst
          (⟨[(Sleeve.dividend,
                (s + s * dvd / p) -
                  (s + s * dvd / p) *
                    (((s + s * dvd / p) * p - (cash0 + (s + s * dvd / p) * p) * t) /
                      ((s + s * dvd / p) * p))),
              (Sleeve.growth, g)],
             cash0 + ((s + s * dvd / p) * p - (cash0 + (s + s * dvd / p) * p) * t)⟩,
           { pushConditions acc0 cond t with
             excessMem := some
               ((s + s * dvd / p) * p - (cash0 + (s + s * dvd / p) * p) * t) })
          ds) := by
  have hpvne : cash0 + (s + s * dvd / p) * p ≠ 0 := ne_of_gt Hpv
  have hdvpos : 0 < (s + s * dvd / p) * p := by
    have h0 : (0:ℚ) < t + 5/100 := by linarith
    have h1 : 0 < (s + s * dvd / p) * p / (cash0 + (s + s * dvd / p) * p) :=
      lt_trans h0 Hband
    have h2 := mul_pos h1 Hpv
    rwa [div_mul_cancel₀ _ hpvne] at h2
  have hmain : stepDate ic spyFirst
      (⟨[(Sleeve.dividend, s), (Sleeve.growth, g)], cash0⟩, acc0)
      ⟨dt, [some p, some 0], [some dvd, none], spyP, cond, t⟩ =
      (⟨[(Sleeve.dividend,
            (s + s * dvd / p) -
              (s + s * dvd / p) *
                (((s + s * dvd / p) * p - (cash0 + (s + s * dvd / p) * p) * t) /
                  ((s + s * dvd / p) * p))),
          (Sleeve.growth, g)],
         cash0 + ((s + s * dvd / p) * p - (cash0 + (s + s * dvd / p) * p) * t)⟩,
       { pushConditions acc0 cond t with
         excessMem := some
           ((s + s * dvd / p) * p - (cash0 + (s + s * dvd / p) * p) * t) }) := by
    simp [stepDate, stepCore, equip, processDividends, reinvestOne, computeValues,
      sellBranch, sellSleeve, buySleeve, countSleeve, unequip, pushConditions,
      hp, Hpv, hdvpos, Hband]
    have hs2 : (s + s * dvd / p) * p ≠ 0 := ne_of_gt hdvpos
    rw [mul_comm (s + s * dvd / p)
      (((s + s * dvd / p) * p - (cash0 + (s + s * dvd / p) * p) * t) /
        ((s + s * dvd / p) * p)), mul_assoc, mul_comm (s + s * dvd / p) p,
      div_mul_cancel₀ _ (by rwa [mul_comm] at hs2)]
  exact ⟨hmain, fun ds => by rw [runDates, hmain]⟩

/-- Witness for C9: 7 dividend shares at price 1 reinvest a 3-per-share
payment (7 → 28 shares, value 28), the bull-band sell leg then sells half
(excess 14 enters cash), the growth buy leg raises on the zero price, and
the date ends with cash 14, no snapshot and no event. -/
theorem C9_failed_date_keeps_mutations_witness :
    (stepDate 100 1 (⟨[(Sleeve.dividend, 7), (Sleeve.growth, 3)], 0⟩, initTrack)
        ⟨11, [some 1, some 0], [some 3, none], some 1, Regime.sideways, 1/2⟩).1.cash = 14 ∧
    (stepDate 100 1 (⟨[(Sleeve.dividend, 7), (Sleeve.growth, 3)], 0⟩, initTrack)
        ⟨11, [some 1, some 0], [some 3, none], some 1, Regime.sideways, 1/2⟩).2.dates = [] ∧
    (stepDate 100 1 (⟨[(Sleeve.dividend, 7), (Sleeve.growth, 3)], 0⟩, initTrack)
        ⟨11, [some 1, some 0], [some 3, none], some 1, Regime.sideways, 1/2⟩).2.rebalancingEvents = [] := by
  have h := C9_failed_date_keeps_mutations 100 1 7 3 0 3 1 (1/2)
    Regime.sideways 11 (some 1) initTrack (by norm_num) (by norm_num)
    (by norm_num) (by norm_num)
  rw [h.1]
  norm_num [pushConditions, initTrack]

/-- C10 counterexample: a date that fails during dividend reinvestment (the
paying position's price lookup raises) aborts before line 235, so it
contributes no market-condition entry and no dynamic-target entry — it does
not "still contribute an entry" as the claim asserts for failing dates. -/
theorem C10_counterexample :
    (stepDate 100 1 (⟨[(Sleeve.dividend, 5)], 0⟩, initTrack)
        ⟨6, [none], [some 1], some 1, Regime.sideways, 7/10⟩).2.marketConditions = [] ∧
    ¬ (stepDate 100 1 (⟨[(Sleeve.dividend, 5)], 0⟩, initTrack)
        ⟨6, [none], [some 1], some 1, Regime.sideways, 7/10⟩).2.marketConditions = [Regime.sideways] ∧
    (stepDate 100 1 (⟨[(Sleeve.dividend, 5)], 0⟩, initTrack)
        ⟨6, [none], [some 1], some 1, Regime.sideways, 7/10⟩).2.dates = [] := by
  refine ⟨by decide, by decide, by decide⟩

/-- C10 (amended): the market-condition and dynamic-target appends sit
after the fallible reinvestment and valuation steps but before the fallible
rebalancing and benchmark steps.  Hence (i) over any run the five snapshot
series always keep equal lengths (they are appended together as the date's
final step), (ii) a date that fails after classification (here: missing
benchmark price) contributes a market-condition entry but no snapshot, so
the regime histogram can count more dates than there are snapshots, while
(iii) a date that fails during reinvestment or valuation contributes
neither. -/
theorem C10_tracking_lengths (ic spyFirst : ℚ) :
    (∀ (st : Ledger × TrackState) (ds : List DayInput),
      snapLengthsEq st.2 → snapLengthsEq (runDates ic spyFirst st ds).2) ∧
    ((stepDate 100 1 (⟨[(Sleeve.dividend, 1)], 0⟩, initTrack)
        ⟨8, [some 1], [none], none, Regime.bull, 11/20⟩).2.marketConditions.length = 1 ∧
      (stepDate 100 1 (⟨[(Sleeve.dividend, 1)], 0⟩, initTrack)
        ⟨8, [some 1], [none], none, Regime.bull, 11/20⟩).2.dates.length = 0) ∧
    ((stepDate 100 1 (⟨[(Sleeve.dividend, 3)], 0⟩, initTrack)
        ⟨2, [none], [some 2], some 1, Regime.bear, 17/20⟩).2.marketConditions.length = 0 ∧
      (stepDate 100 1 (⟨[(Sleeve.dividend, 3)], 0⟩, initTrack)
        ⟨2, [none], [some 2], some 1, Regime.bear, 17/20⟩).2.dates.length = 0) := by
  refine ⟨fun st ds h => runDates_snapLengths ic spyFirst st ds h, ⟨?_, ?_⟩, ⟨?_, ?_⟩⟩
  · norm_num [stepDate, stepCore, equip, processDividends, reinvestOne,
      computeValues, pushConditions, sellBranch, buyBranch, sellSleeve,
      buySleeve, countSleeve, finishDay, recordSnapshot, unequip, initTrack]
  · norm_num [stepDate, stepCore, equip, processDividends, reinvestOne,
      computeValues, pushConditions, sellBranch, buyBranch, sellSleeve,
      buySleeve, countSleeve, finishDay, recordSnapshot, unequip, initTrack]
  · decide
  · decide

/-- Witness for C10 (amended): the empty accumulator trivially has equal
lengths and keeps them over a run. -/
theorem C10_tracking_lengths_witness :
    snapLengthsEq (runDates 100 1 (⟨[(Sleeve.dividend, 1)], 0⟩, initTrack)
      []).2 :=
  (C10_tracking_lengths 100 1).1 (⟨[(Sleeve.dividend, 1)], 0⟩, initTrack) []
    (by decide)

end Backtest
